import Mathlib

/-! Verification of the `dbload` data-loading pipeline (`src/py/dbload/dbload.py`).

The Python source is shallowly embedded below.  Conventions of the embedding:

* Python strings are Lean `String`s; all character-level work is done on
  `String.data` (a `List Char`) with executable helper functions, so that every
  definition evaluates by kernel reduction.
* Python floats are modelled exactly: a successfully parsed decimal literal is
  kept as an integer significand together with a power-of-ten exponent
  (`PyFloat.finite sig exp`, denoting the rational `sig * 10 ^ exp`), and the
  special literals accepted by `float()` are kept as `PyFloat.inf` / `PyFloat.nan`.
  Binary64 rounding of the decimal value is not modelled; none of the verified
  properties depends on it.
* Python exceptions are modelled with `Except PyErr`; a `try/except` becomes a
  `match` on the embedded result.
* File contents are passed in as a `String`; the line iteration of the Python
  file object is `pyLines`.
-/

namespace Dbload

instance {ε α : Type} [DecidableEq ε] [DecidableEq α] : DecidableEq (Except ε α) := fun a b =>
  match a, b with
  | Except.ok x, Except.ok y =>
    if h : x = y then isTrue (by rw [h]) else isFalse (by intro hc; cases hc; exact h rfl)
  | Except.error x, Except.error y =>
    if h : x = y then isTrue (by rw [h]) else isFalse (by intro hc; cases hc; exact h rfl)
  | Except.ok _, Except.error _ => isFalse (by intro hc; cases hc)
  | Except.error _, Except.ok _ => isFalse (by intro hc; cases hc)

/-- Exceptions that the embedded code can raise.  `valueError` stands for
`ValueError` (including `json.JSONDecodeError` and the `ValueError` raised by
tuple unpacking of a wrong-arity tuple), `overflowError` for `OverflowError`. -/
inductive PyErr where
  | valueError
  | overflowError
deriving DecidableEq, Repr

/-- A parsed Python float: `finite sig exp` denotes the exact rational
`sig * 10 ^ exp`; `inf`/`nan` model the special values produced by
`float("inf")`, `float("nan")` and friends. -/
inductive PyFloat where
  | finite (sig : Int) (exp : Int)
  | inf (neg : Bool)
  | nan
deriving DecidableEq, Repr

/-- The tagged values produced by `DatabaseManager._convert_value`:
SQLite receives `None`, an `int`, a `float`, or a `str`. -/
inductive SqlValue where
  | null
  | int (n : Int)
  | real (x : PyFloat)
  | text (s : String)
deriving DecidableEq, Repr

/-- Characters stripped by Python `str.strip()` (ASCII whitespace). -/
def isPySpace (c : Char) : Bool :=
  c = ' ' || c = '\t' || c = '\n' || c = '\r' || c = '\x0b' || c = '\x0c'

/-- Python str.strip applied to a character list. -/
def trimChars (cs : List Char) : List Char :=
  ((cs.dropWhile isPySpace).reverse.dropWhile isPySpace).reverse

/-- Python `value.strip()`. -/
def pyStrip (s : String) : String :=
  String.mk (trimChars s.data)

/-- Splitting a character list on a single separator character,
Python `str.split(sep)` semantics: `"".split(",") == [""]`, empty fields kept. -/
def splitOnChar (d : Char) : List Char → List (List Char)
  | [] => [[]]
  | c :: rest =>
    let r := splitOnChar d rest
    if c = d then [] :: r
    else
      match r with
      | [] => [[c]]
      | g :: gs => (c :: g) :: gs

/-- Python `line.split(delimiter)` for a one-character delimiter. -/
def pySplit (s : String) (d : Char) : List String :=
  (splitOnChar d s.data).map String.mk

/-- The lines of a file's contents, as produced by iterating a Python text file
(or repeated `readline()`): pieces separated by newline characters, without a
phantom empty line after a trailing newline.  Line terminators are dropped
(every caller in the source strips them anyway). -/
def pyLines (content : String) : List String :=
  if content = "" then []
  else
    let parts := (splitOnChar '\n' content.data).map String.mk
    if content.data.getLast? = some '\n' then parts.dropLast else parts

/-- Numeric value of a list of decimal digits. -/
def digitsVal (ds : List Char) : Nat :=
  ds.foldl (fun a c => a * 10 + (c.toNat - 48)) 0

/-- Continuation of a Python digit group: consumes `(('_')? digit)*`,
returning the digits consumed (underscores dropped) and the rest.
A `'_'` not followed by a digit is not consumed. -/
def digitsURest : List Char → (List Char × List Char)
  | '_' :: c :: cs =>
    if c.isDigit then
      let (ds, r) := digitsURest cs
      (c :: ds, r)
    else ([], '_' :: c :: cs)
  | c :: cs =>
    if c.isDigit then
      let (ds, r) := digitsURest cs
      (c :: ds, r)
    else ([], c :: cs)
  | [] => ([], [])

/-- A Python `digitpart`: `digit (('_')? digit)*`.  Returns the digits
(with grouping underscores removed) and the remaining input, or `none`
if the input does not start with a digit. -/
def parseDigitsU : List Char → Option (List Char × List Char)
  | c :: r =>
    if c.isDigit then
      let (ds, rest) := digitsURest r
      some (c :: ds, rest)
    else none
  | [] => none

/-- Whether `int(s)` succeeds in Python (base 10, ASCII):
optional surrounding whitespace, an optional sign, then a digit group. -/
def pyIntParses (s : String) : Bool :=
  let cs := trimChars s.data
  let cs := match cs with
    | '+' :: r => r
    | '-' :: r => r
    | r => r
  match parseDigitsU cs with
  | some (_, []) => true
  | _ => false

/-- The mantissa/exponent part of `float(s)` after sign removal:
`(digitpart? "." digitpart? | digitpart) exponent?` with at least one mantissa
digit, exponent `("e"|"E") sign? digitpart`. -/
def parseDecimal (neg : Bool) (cs : List Char) : Option PyFloat :=
  let (ip, rest) := match parseDigitsU cs with
    | some (ds, r) => (ds, r)
    | none => (([] : List Char), cs)
  let (fp, rest2) := match rest with
    | '.' :: r =>
      (match parseDigitsU r with
       | some (ds, r2) => (ds, r2)
       | none => (([] : List Char), r))
    | r => (([] : List Char), r)
  if ip = [] ∧ fp = [] then none
  else
    let sig : Int := if neg then -(digitsVal (ip ++ fp) : Int) else (digitsVal (ip ++ fp) : Int)
    match rest2 with
    | [] => some (PyFloat.finite sig (-(fp.length : Int)))
    | e :: r3 =>
      if e = 'e' ∨ e = 'E' then
        let (eneg, r4) := match r3 with
          | '+' :: rr => (false, rr)
          | '-' :: rr => (true, rr)
          | rr => (false, rr)
        match parseDigitsU r4 with
        | some (eds, []) =>
          let ev : Int := if eneg then -(digitsVal eds : Int) else (digitsVal eds : Int)
          some (PyFloat.finite sig (ev - (fp.length : Int)))
        | _ => none
      else none

/-- Python `float(s)`: optional surrounding whitespace, optional sign, then
either a case-insensitive `inf`/`infinity`/`nan` literal or a decimal literal.
Returns `none` when `float()` raises `ValueError`. -/
def pyFloat (s : String) : Option PyFloat :=
  let cs := trimChars s.data
  let (neg, cs) := match cs with
    | '+' :: r => (false, r)
    | '-' :: r => (true, r)
    | r => (false, r)
  let low := cs.map Char.toLower
  if low = ['i', 'n', 'f'] ∨ low = ['i', 'n', 'f', 'i', 'n', 'i', 't', 'y'] then
    some (PyFloat.inf neg)
  else if low = ['n', 'a', 'n'] then some PyFloat.nan
  else parseDecimal neg cs

/-- Truncation toward zero of the rational `sig * 10 ^ e`:
the value of Python `int(f)` for a finite float `f`. -/
def truncSigExp (sig e : Int) : Int :=
  if 0 ≤ e then sig * 10 ^ e.toNat
  else sig.sign * ((sig.natAbs / 10 ^ (-e).toNat : Nat) : Int)

/-- The exact rational denoted by a finite parsed float. -/
def sigExpVal (sig e : Int) : ℚ := (sig : ℚ) * 10 ^ e

/-- Model of `DatabaseManager._convert_value` (dbload.py lines 697-713), with the
exception behaviour made explicit: blank values become `None`; `INTEGER`
coercion is `int(float(value))`, `REAL` coercion is `float(value)`, and a
`ValueError`/`TypeError` from the conversion is caught and the (stripped)
string is returned instead.  `int()` of an infinite float raises
`OverflowError`, which the `except (ValueError, TypeError)` clause does not
catch, so it escapes. -/
def convert_value (value : String) (targetType : String) : Except PyErr SqlValue :=
  if pyStrip value = "" then Except.ok SqlValue.null
  else
    let v := pyStrip value
    if targetType = "INTEGER" then
      match pyFloat v with
      | none => Except.ok (SqlValue.text v)
      | some (PyFloat.finite sig e) => Except.ok (SqlValue.int (truncSigExp sig e))
      | some (PyFloat.inf _) => Except.error PyErr.overflowError
      | some PyFloat.nan => Except.ok (SqlValue.text v)
    else if targetType = "REAL" then
      match pyFloat v with
      | none => Except.ok (SqlValue.text v)
      | some x => Except.ok (SqlValue.real x)
    else Except.ok (SqlValue.text v)

/-- Model of `DataTypeDetector.detect_type` (dbload.py lines 31-81).  The float ratio
test `total_numeric / total_values >= 0.8` is modelled as exact rational
arithmetic with threshold `4/5`. -/
def detect_type (values : List String) : String :=
  if values = [] then "TEXT"
  else
    let nonEmpty := (values.map pyStrip).filter (fun v => v ≠ "")
    if nonEmpty = [] then "TEXT"
    else
      let integerCount := nonEmpty.countP (fun v => pyIntParses v)
      let realCount := nonEmpty.countP (fun v => !pyIntParses v && (pyFloat v).isSome)
      let totalNumeric := integerCount + realCount
      let totalValues := nonEmpty.length
      if ((totalNumeric : ℚ) / (totalValues : ℚ)) ≥ 4 / 5 then
        if realCount = 0 then "INTEGER" else "REAL"
      else "TEXT"

/-- The three classes of the specification's type-inference rule. -/
inductive ValKind where
  | intLike
  | realLike
  | other
deriving DecidableEq, Repr

/-- Claim-side classification of one remaining value: integer-parseable,
real-parseable-but-not-integer, or neither. -/
def classify (v : String) : ValKind :=
  if pyIntParses v then ValKind.intLike
  else if (pyFloat v).isSome then ValKind.realLike
  else ValKind.other

/-- The specification's description of `detect_type`, written independently of
the source: discard blank entries, classify the remaining (stripped) values,
compare the numeric ratio with 4/5 using integer arithmetic. -/
def detect_type_spec (values : List String) : String :=
  let kept := (values.map pyStrip).filter (fun v => v ≠ "")
  if kept = [] then "TEXT"
  else
    let ic := kept.countP (fun v => classify v == ValKind.intLike)
    let rc := kept.countP (fun v => classify v == ValKind.realLike)
    if 4 * kept.length ≤ 5 * (ic + rc) then
      if rc = 0 then "INTEGER" else "REAL"
    else "TEXT"

/-- The candidate delimiters of `FileFormatDetector.detect_csv_delimiter`
(dbload.py line 99), in their Python list order. -/
def delimiters : List Char := [',', ';', '|', '\t']

/-- Per-line field counts for one candidate delimiter: every non-empty sampled
line is split on the candidate (dbload.py lines 112-116). -/
def fieldCounts (d : Char) (sampleLines : List String) : List Nat :=
  (sampleLines.filter (fun l => l ≠ "")).map (fun l => (pySplit l d).length)

/-- Python `max` of a list of naturals (0 on the empty list, unused there). -/
def listMax (l : List Nat) : Nat := l.foldl Nat.max 0

/-- Python `min` of a list of naturals (0 on the empty list, unused there). -/
def listMin : List Nat → Nat
  | [] => 0
  | x :: xs => xs.foldl Nat.min x

/-- The score assigned to one candidate delimiter (dbload.py lines 118-125):
`consistency * avg_fields` when `avg_fields >= 2`, otherwise the dictionary
keeps its initial score 0.  Float arithmetic is modelled exactly over `ℚ`. -/
def delimScore (d : Char) (sampleLines : List String) : ℚ :=
  let counts := fieldCounts d sampleLines
  if counts = [] then 0
  else
    let avg : ℚ := (counts.sum : ℚ) / (counts.length : ℚ)
    let consistency : ℚ := 1 - ((listMax counts : ℚ) - (listMin counts : ℚ)) / max avg 1
    if 2 ≤ avg then consistency * avg else 0

/-- Python `max(items, key=...)` over a non-empty candidate list: the first
candidate with the maximal score (later candidates replace the current best
only on a strictly greater score). -/
def pickBest (f : Char → ℚ) : List Char → Char
  | [] => ','
  | d :: ds => ds.foldl (fun b x => if f b < f x then x else b) d

/-- The sample actually scored by `detect_csv_delimiter`: the first (at most) 5
lines read from the file, each stripped (dbload.py lines 102-109). -/
def csvSample (lines : List String) : List String :=
  (lines.take 5).map pyStrip

/-- Model of `FileFormatDetector.detect_csv_delimiter` (dbload.py lines 88-132), as a
function of the file's lines: score each candidate over the stripped first five
lines, return the best-scoring candidate if its score is positive, else `,`. -/
def detect_csv_delimiter (lines : List String) : Char :=
  let sample := csvSample lines
  let best := pickBest (fun d => delimScore d sample) delimiters
  if 0 < delimScore best sample then best else ','

/-- The sample described by the claim: the first at most 5 *non-empty* lines. -/
def claimSample (lines : List String) : List String :=
  ((lines.map pyStrip).filter (fun l => l ≠ "")).take 5

/-- The delimiter-detection procedure exactly as the claim words it: score the
candidates over the first at most 5 non-empty lines, return the
highest-scoring candidate, and return `,` whenever all scores are zero. -/
def detect_delimiter_claim (lines : List String) : Char :=
  let sample := claimSample lines
  let best := pickBest (fun d => delimScore d sample) delimiters
  if ∀ d ∈ delimiters, delimScore d sample = 0 then ',' else best

/-- Parsed JSON values, as produced by `json.loads`.  Objects are Python
dicts modelled as association lists in first-insertion order with
last-value-wins semantics (see `objInsert`).  An integer literal becomes a
Python `int`; a literal with a fraction or exponent becomes a float, kept
exactly as significand and power-of-ten exponent. -/
inductive JVal where
  | null
  | bool (b : Bool)
  | int (n : Int)
  | float (sig : Int) (exp : Int)
  | str (s : String)
  | arr (elems : List JVal)
  | obj (fields : List (String × JVal))

/-- Dict insertion: a repeated key keeps its original position but takes the
new value, as in Python dicts built by `json.loads`. -/
def objInsert (k : String) (v : JVal) : List (String × JVal) → List (String × JVal)
  | [] => [(k, v)]
  | (k0, v0) :: rest => if k0 = k then (k0, v) :: rest else (k0, v0) :: objInsert k v rest

/-- JSON insignificant whitespace. -/
def jsonWs (cs : List Char) : List Char :=
  cs.dropWhile (fun c => c = ' ' || c = '\t' || c = '\n' || c = '\r')

/-- Value of one hexadecimal digit. -/
def hexVal (c : Char) : Option Nat :=
  if c.isDigit then some (c.toNat - 48)
  else if 'a' ≤ c && c ≤ 'f' then some (c.toNat - 87)
  else if 'A' ≤ c && c ≤ 'F' then some (c.toNat - 55)
  else none

/-- Body of a JSON string after the opening quote: content up to the closing
quote, with the standard escapes (a `\uXXXX` escape becomes the single code
point `XXXX`; surrogate-pair combination is not modelled).  Unescaped control
characters are rejected, as in strict-mode `json.loads`. -/
def jstrBody : Nat → List Char → Option (List Char × List Char)
  | 0, _ => none
  | _ + 1, [] => none
  | fuel + 1, c :: rest =>
    if c = '"' then some ([], rest)
    else if c = '\\' then
      match rest with
      | [] => none
      | e :: rest2 =>
        if e = 'u' then
          match rest2 with
          | h1 :: h2 :: h3 :: h4 :: rest3 =>
            match hexVal h1, hexVal h2, hexVal h3, hexVal h4 with
            | some a, some b, some c2, some d =>
              match jstrBody fuel rest3 with
              | some (tl, rem) => some (Char.ofNat (((a * 16 + b) * 16 + c2) * 16 + d) :: tl, rem)
              | none => none
            | _, _, _, _ => none
          | _ => none
        else
          let esc : Option Char :=
            if e = '"' then some '"'
            else if e = '\\' then some '\\'
            else if e = '/' then some '/'
            else if e = 'b' then some '\x08'
            else if e = 'f' then some '\x0c'
            else if e = 'n' then some '\n'
            else if e = 'r' then some '\r'
            else if e = 't' then some '\t'
            else none
          match esc with
          | some ec =>
            match jstrBody fuel rest2 with
            | some (tl, rem) => some (ec :: tl, rem)
            | none => none
          | none => none
    else if c.toNat < 32 then none
    else
      match jstrBody fuel rest with
      | some (tl, rem) => some (c :: tl, rem)
      | none => none

/-- One or more plain decimal digits (JSON allows no grouping underscores). -/
def digitsRest : List Char → (List Char × List Char)
  | c :: cs =>
    if c.isDigit then
      let (ds, r) := digitsRest cs
      (c :: ds, r)
    else ([], c :: cs)
  | [] => ([], [])

/-- A non-empty run of decimal digits, or `none`. -/
def parseDigits1 : List Char → Option (List Char × List Char)
  | c :: r =>
    if c.isDigit then
      let (ds, rest) := digitsRest r
      some (c :: ds, rest)
    else none
  | [] => none

/-- A JSON number: `-? (0 | [1-9][0-9]*) (. [0-9]+)? ([eE] [+-]? [0-9]+)?`.
An integer literal parses to a Python `int`, anything with a fraction or
exponent to a float. -/
def parseJNumber (cs : List Char) : Option (JVal × List Char) :=
  let (neg, cs1) := match cs with
    | '-' :: r => (true, r)
    | r => (false, r)
  match parseDigits1 cs1 with
  | none => none
  | some (ip, rest) =>
    if 1 < ip.length ∧ ip.headD '0' = '0' then none
    else
      let (fp, rest2, isFloat) := match rest with
        | '.' :: r =>
          (match parseDigits1 r with
           | some (ds, r2) => (ds, r2, true)
           | none => (([] : List Char), ('.' :: r), false))
        | r => (([] : List Char), r, false)
      if rest2.headD ' ' = '.' then none
      else
        let sig0 : Int := (digitsVal (ip ++ fp) : Int)
        let sig : Int := if neg then -sig0 else sig0
        match rest2 with
        | e :: r3 =>
          if e = 'e' ∨ e = 'E' then
            let (eneg, r4) := match r3 with
              | '+' :: rr => (false, rr)
              | '-' :: rr => (true, rr)
              | rr => (false, rr)
            match parseDigits1 r4 with
            | some (eds, r5) =>
              let ev0 : Int := (digitsVal eds : Int)
              let ev : Int := if eneg then -ev0 else ev0
              some (JVal.float sig (ev - (fp.length : Int)), r5)
            | none => none
          else if isFloat then some (JVal.float sig (-(fp.length : Int)), e :: r3)
          else some (JVal.int sig, e :: r3)
        | [] =>
          if isFloat then some (JVal.float sig (-(fp.length : Int)), [])
          else some (JVal.int sig, [])

mutual

/-- Recursive-descent JSON value parser (model of `json.loads` on the grammar
level), with an explicit fuel argument; callers supply ample fuel. -/
def parseJVal : Nat → List Char → Option (JVal × List Char)
  | 0, _ => none
  | f + 1, cs =>
    match jsonWs cs with
    | '\x7b' :: r =>
      (match jsonWs r with
       | '\x7d' :: r2 => some (JVal.obj [], r2)
       | _ =>
         match parseJPair f (jsonWs r) with
         | some (kv, r2) => parseJObjRest f (objInsert kv.1 kv.2 []) r2
         | none => none)
    | '[' :: r =>
      (match jsonWs r with
       | ']' :: r2 => some (JVal.arr [], r2)
       | _ =>
         match parseJVal f (jsonWs r) with
         | some (v, r2) => parseJArrRest f [v] r2
         | none => none)
    | '"' :: r =>
      (match jstrBody (r.length + 1) r with
       | some (body, rem) => some (JVal.str (String.mk body), rem)
       | none => none)
    | 't' :: 'r' :: 'u' :: 'e' :: r => some (JVal.bool true, r)
    | 'f' :: 'a' :: 'l' :: 's' :: 'e' :: r => some (JVal.bool false, r)
    | 'n' :: 'u' :: 'l' :: 'l' :: r => some (JVal.null, r)
    | other => parseJNumber other

/-- One `"key": value` member of a JSON object. -/
def parseJPair : Nat → List Char → Option ((String × JVal) × List Char)
  | 0, _ => none
  | f + 1, cs =>
    match cs with
    | '"' :: r =>
      (match jstrBody (r.length + 1) r with
       | some (body, rem) =>
         (match jsonWs rem with
          | ':' :: r2 =>
            (match parseJVal f r2 with
             | some (v, r3) => some ((String.mk body, v), r3)
             | none => none)
          | _ => none)
       | none => none)
    | _ => none

/-- The members of a JSON object after the first one: `, member`* then `}`. -/
def parseJObjRest : Nat → List (String × JVal) → List Char → Option (JVal × List Char)
  | 0, _, _ => none
  | f + 1, fields, cs =>
    match jsonWs cs with
    | '\x7d' :: r => some (JVal.obj fields, r)
    | ',' :: r =>
      (match parseJPair f (jsonWs r) with
       | some (kv, r2) => parseJObjRest f (objInsert kv.1 kv.2 fields) r2
       | none => none)
    | _ => none

/-- The elements of a JSON array after the first one: `, value`* then `]`. -/
def parseJArrRest : Nat → List JVal → List Char → Option (JVal × List Char)
  | 0, _, _ => none
  | f + 1, elems, cs =>
    match jsonWs cs with
    | ']' :: r => some (JVal.arr elems.reverse, r)
    | ',' :: r =>
      (match parseJVal f r with
       | some (v, r2) => parseJArrRest f (v :: elems) r2
       | none => none)
    | _ => none

end

/-- Model of `json.loads`: parse one JSON value, requiring only whitespace
after it (`json.loads` raises on extra data).  `none` models a raised
`json.JSONDecodeError`. -/
def json_loads (s : String) : Option JVal :=
  match parseJVal (4 * s.data.length + 8) s.data with
  | some (v, rest) => if jsonWs rest = [] then some v else none
  | none => none

mutual

/-- Python `repr` of a parsed JSON value, used by `str()` on lists and dicts.
Strings are rendered in single quotes without escaping, and floats as
`<sig>e<exp>`: the exact escaping/shortest-float rules of CPython are not
modelled (no verified claim depends on them). -/
def pyRepr : JVal → String
  | JVal.null => "None"
  | JVal.bool true => "True"
  | JVal.bool false => "False"
  | JVal.int n => toString n
  | JVal.float sig e => toString sig ++ "e" ++ toString e
  | JVal.str s => String.mk (Char.ofNat 39 :: s.data ++ [Char.ofNat 39])
  | JVal.arr xs => "[" ++ pyReprItems xs ++ "]"
  | JVal.obj fs => "\x7b" ++ pyReprFields fs ++ "\x7d"

/-- Comma-separated `repr`s of list elements. -/
def pyReprItems : List JVal → String
  | [] => ""
  | [x] => pyRepr x
  | x :: y :: rest => pyRepr x ++ ", " ++ pyReprItems (y :: rest)

/-- Comma-separated `repr`s of dict entries. -/
def pyReprFields : List (String × JVal) → String
  | [] => ""
  | [(k, v)] => pyRepr (JVal.str k) ++ ": " ++ pyRepr v
  | (k, v) :: kv :: rest => pyRepr (JVal.str k) ++ ": " ++ pyRepr v ++ ", " ++ pyReprFields (kv :: rest)

end

/-- Python `str()` of a parsed JSON value (`str(obj.get(header, ''))`).
Scalar cases are spelled out (rather than delegated to `pyRepr`) so that they
evaluate by kernel reduction. -/
def pyStr : JVal → String
  | JVal.str s => s
  | JVal.null => "None"
  | JVal.bool true => "True"
  | JVal.bool false => "False"
  | JVal.int n => toString n
  | JVal.float sig e => toString sig ++ "e" ++ toString e
  | JVal.arr xs => pyRepr (JVal.arr xs)
  | JVal.obj fs => pyRepr (JVal.obj fs)

/-- The value returned by a per-format loader.  The annotated return type of
all three loaders is the 4-tuple `(headers, rows, has_headers, all_raw_rows)`,
but two early-return statements (dbload.py lines 157 and 264) produce a
3-tuple instead; `three` records that malformed shape, which makes the
caller's 4-way tuple unpacking raise a `ValueError`. -/
inductive LoadResult where
  | four (headers : List String) (rows : List (List String)) (hasHeaders : Bool)
      (raw : List (List String))
  | three (headers : List String) (rows : List (List String)) (hasHeaders : Bool)
deriving DecidableEq, Repr

/-- Lexicographic comparison of character lists by code point, the order
Python `sorted` uses on strings. -/
def charsLe : List Char → List Char → Bool
  | [], _ => true
  | _ :: _, [] => false
  | a :: as, b :: bs =>
    if a.toNat < b.toNat then true
    else if b.toNat < a.toNat then false
    else charsLe as bs

/-- String order by code points. -/
def strLeB (a b : String) : Bool := charsLe a.data b.data

/-- Python `sorted` on a list of strings. -/
def sortStrings (l : List String) : List String :=
  List.insertionSort (fun a b => strLeB a b = true) l

/-- The objects collected by the newline-delimited branch of
`FileFormatDetector.load_json` (dbload.py lines 218-228): each non-blank line
is parsed; lines that fail to parse, or parse to a non-dict, are skipped. -/
def ndObjects (lines : List String) : List (List (String × JVal)) :=
  lines.filterMap (fun line =>
    let line := pyStrip line
    if line = "" then none
    else
      match json_loads line with
      | some (JVal.obj fields) => some fields
      | _ => none)

/-- The headers of the newline-delimited branch: `sorted(list(all_keys))`
where `all_keys` is the union of the keys of all parsed objects
(dbload.py lines 231-236). -/
def ndHeaders (lines : List String) : List String :=
  sortStrings (((ndObjects lines).map (fun o => o.map Prod.fst)).flatten.dedup)

/-- One output row of either JSON branch: `str(obj.get(header, ''))` per
header (dbload.py lines 211, 239). -/
def jsonRow (headers : List String) (fields : List (String × JVal)) : List String :=
  headers.map (fun h => pyStr ((fields.lookup h).getD (JVal.str "")))

/-- Whether some parsed newline-delimited object carries the key `k`. -/
def ndHasKey (lines : List String) (k : String) : Bool :=
  (ndObjects lines).any (fun o => (o.map Prod.fst).contains k)

/-- The rows of the newline-delimited branch: one row per parsed object. -/
def ndRows (lines : List String) : List (List String) :=
  (ndObjects lines).map (jsonRow (ndHeaders lines))

/-- The newline-delimited branch of `load_json` (dbload.py lines 230-247) as a
function of the parsed objects: build the sorted key union and one row per
object, or return the empty 4-tuple when no object parsed. -/
def loadJsonNdOf (objects : List (List (String × JVal))) : LoadResult :=
  match objects with
  | [] => LoadResult.four [] [] false []
  | objs =>
    let headers := sortStrings ((objs.map (fun o => o.map Prod.fst)).flatten.dedup)
    let rows := objs.map (jsonRow headers)
    LoadResult.four headers rows true rows

/-- The newline-delimited branch of `load_json` (dbload.py lines 217-247),
as a function of the split lines. -/
def load_json_nd (lines : List String) : LoadResult :=
  loadJsonNdOf (ndObjects lines)

/-- The rows of the array-of-objects branch (dbload.py lines 209-212):
`obj.get` on a non-dict element raises (`none` here), which the enclosing
handler converts to a `ValueError`. -/
def arrRows (headers : List String) : List JVal → Option (List (List String))
  | [] => some []
  | JVal.obj fields :: rest =>
    (match arrRows headers rest with
     | some rows => some (jsonRow headers fields :: rows)
     | none => none)
  | _ :: _ => none

/-- Model of `FileFormatDetector.load_json` (dbload.py lines 189-247) on the file's
contents: strip, try a whole-content parse — an array whose first element is a
dict takes the array branch (headers are the first object's keys in encounter
order) — otherwise fall through to the newline-delimited branch. -/
def load_json (content : String) : Except PyErr LoadResult :=
  let c := pyStrip content
  let nd := load_json_nd (pySplit c '\n')
  match json_loads c with
  | some (JVal.arr (first :: restEls)) =>
    (match first with
     | JVal.obj firstFields =>
       let headers := firstFields.map Prod.fst
       (match arrRows headers (JVal.obj firstFields :: restEls) with
        | some rows => Except.ok (LoadResult.four headers rows true rows)
        | none => Except.error PyErr.valueError)
     | _ => Except.ok nd)
  | _ => Except.ok nd

/-- Model of `FileFormatDetector._looks_like_number` (dbload.py lines 294-300). -/
def looks_like_number (value : String) : Bool :=
  (pyFloat (pyStrip value)).isSome

/-- Python string join with a separator. -/
def strJoin (sep : String) : List String → String
  | [] => ""
  | x :: rest => rest.foldl (fun a b => a ++ sep ++ b) x

/-- Model of `FileFormatDetector.load_csv` (dbload.py lines 134-186) on the file's
contents.  `csv.Sniffer().has_header` is an external stdlib heuristic and is
passed in as an oracle `sniff` (`none` models the sniffer raising, which
triggers the non-numeric-first-row fallback).  `csv.reader` is modelled as a
plain split on the detected delimiter (field quoting is not modelled; no
verified claim depends on it).  On an empty sample the function returns the
3-tuple of line 157. -/
def load_csv (sniff : String → Option Bool) (content : String) : LoadResult :=
  let delimiter := detect_csv_delimiter (pyLines content)
  let sampleLines := ((pyLines content).take 10).map pyStrip
  if sampleLines = [] then LoadResult.three [] [] false
  else
    let sampleText := strJoin "\n" sampleLines
    let hasHeaders :=
      match sniff sampleText with
      | some b => b
      | none =>
        (pySplit (sampleLines.headD "") delimiter).any (fun f => !looks_like_number (pyStrip f))
    let allRows := (pyLines content).map (fun l => if l = "" then ([] : List String) else pySplit l delimiter)
    if allRows = [] then LoadResult.four [] [] false []
    else if hasHeaders then
      LoadResult.four (allRows.headD []) allRows.tail true allRows
    else
      LoadResult.four
        ((List.range (allRows.headD []).length).map (fun i => "column_" ++ toString (i + 1)))
        allRows false allRows

/-- Everything up to (but not including) the first occurrence of `q`, together
with the rest after it; `none` when `q` does not occur. -/
def takeUntilChar (q : Char) : List Char → Option (List Char × List Char)
  | [] => none
  | c :: cs =>
    if c = q then some ([], cs)
    else
      match takeUntilChar q cs with
      | some (b, r) => some (c :: b, r)
      | none => none

/-- One unit of the field regex of `load_text`
(`[^\s"']+`, `"[^"]*"` or `'[^']*'`), at the current position. -/
def matchUnit : List Char → Option (List Char × List Char)
  | [] => none
  | c :: cs =>
    if isPySpace c then none
    else if c = '"' then
      match takeUntilChar '"' cs with
      | some (body, rest) => some ('"' :: (body ++ ['"']), rest)
      | none => none
    else if c = Char.ofNat 39 then
      match takeUntilChar (Char.ofNat 39) cs with
      | some (body, rest) => some (Char.ofNat 39 :: (body ++ [Char.ofNat 39]), rest)
      | none => none
    else
      let run := (c :: cs).takeWhile (fun x => !isPySpace x && x ≠ '"' && x ≠ Char.ofNat 39)
      some (run, (c :: cs).drop run.length)

/-- A maximal token: one or more adjacent units (the `+` of the regex). -/
def matchToken : Nat → List Char → Option (List Char × List Char)
  | 0, _ => none
  | f + 1, cs =>
    match matchUnit cs with
    | none => none
    | some (u, rest) =>
      match matchToken f rest with
      | some (u2, rest2) => some (u ++ u2, rest2)
      | none => some (u, rest)

/-- Model of the findall scanning for the field regex: try a token at each position,
skip one character where no token matches. -/
def findTokens : Nat → List Char → List (List Char)
  | 0, _ => []
  | f + 1, cs =>
    match cs with
    | [] => []
    | _ :: rest =>
      match matchToken (cs.length + 1) cs with
      | some (tok, rem) => tok :: findTokens f rem
      | none => findTokens f rest

/-- The strip call applied to each matched field: remove any leading and
trailing quote characters (single or double). -/
def stripQuotes (cs : List Char) : List Char :=
  ((cs.dropWhile (fun c => c = '"' || c = Char.ofNat 39)).reverse.dropWhile
      (fun c => c = '"' || c = Char.ofNat 39)).reverse

/-- The whitespace-with-quotes field splitter of `load_text`
(dbload.py lines 269-272). -/
def splitWsQuoted (line : String) : List String :=
  (findTokens (line.data.length + 1) line.data).map (fun t => String.mk (stripQuotes t))

/-- Model of `FileFormatDetector.load_text` (dbload.py lines 249-291) on the file's
contents.  On an empty line list it returns the 3-tuple of line 264. -/
def load_text (content : String) : LoadResult :=
  let lines := ((pyLines content).map pyStrip).filter (fun l => l ≠ "")
  if lines = [] then LoadResult.three [] [] false
  else
    let allRows := (lines.map splitWsQuoted).filter (fun fields => fields ≠ [])
    if allRows = [] then LoadResult.four [] [] false []
    else
      let firstRow := allRows.headD []
      let hasHeaders := firstRow.any (fun f => !looks_like_number f)
      if hasHeaders then LoadResult.four firstRow allRows.tail true allRows
      else
        LoadResult.four
          ((List.range firstRow.length).map (fun i => "column_" ++ toString (i + 1)))
          allRows false allRows

/-- The caller-side 4-way tuple unpacking
`headers, rows, has_headers, all_rows = loader(file_path)`: unpacking a
3-tuple into four names raises a `ValueError`. -/
def unpack4 : LoadResult → Except PyErr (List String × List (List String) × Bool × List (List String))
  | LoadResult.four h r hh raw => Except.ok (h, r, hh, raw)
  | LoadResult.three _ _ _ => Except.error PyErr.valueError

/-- Run one named loader and unpack its result, as `detect_and_load` does. -/
def runLoader (sniff : String → Option Bool) (fmt : String) (content : String) :
    Except PyErr (List String × List (List String) × Bool × List (List String)) :=
  if fmt = "CSV" then unpack4 (load_csv sniff content)
  else if fmt = "JSON" then
    match load_json content with
    | Except.ok r => unpack4 r
    | Except.error e => Except.error e
  else unpack4 (load_text content)

/-- The fallback loop of `detect_and_load` (dbload.py lines 337-352): try the
formats in order, accept the first attempt with non-empty headers and rows,
raise `ValueError` when every attempt fails or comes back empty. -/
def fallbackLoad (sniff : String → Option Bool) (content : String) :
    List String → Except PyErr (List String × List (List String) × Bool × String × List (List String))
  | [] => Except.error PyErr.valueError
  | fmt :: rest =>
    match runLoader sniff fmt content with
    | Except.ok (h, r, hh, raw) =>
      if h ≠ [] ∧ r ≠ [] then Except.ok (h, r, hh, fmt, raw)
      else fallbackLoad sniff content rest
    | Except.error _ => fallbackLoad sniff content rest

/-- Model of `FileFormatDetector.detect_and_load` (dbload.py lines 302-352), as a
function of the (lower-cased) file extension and the file's contents: dispatch
on the extension first — that branch returns whatever the loader produced,
empty or not — and on any failure fall back to trying CSV, JSON, TEXT in
order. -/
def detect_and_load (sniff : String → Option Bool) (ext : String) (content : String) :
    Except PyErr (List String × List (List String) × Bool × String × List (List String)) :=
  let primary :=
    if ext = ".csv" then some "CSV"
    else if ext = ".json" then some "JSON"
    else if ext = ".txt" ∨ ext = ".tsv" ∨ ext = ".dat" then some "TEXT"
    else none
  match primary with
  | some fmt =>
    (match runLoader sniff fmt content with
     | Except.ok (h, r, hh, raw) => Except.ok (h, r, hh, fmt, raw)
     | Except.error _ => fallbackLoad sniff content ["CSV", "JSON", "TEXT"])
  | none => fallbackLoad sniff content ["CSV", "JSON", "TEXT"]

/-- Characters kept by the sanitizer regex `[^a-zA-Z0-9_]` (ASCII ranges). -/
def isIdentChar (c : Char) : Bool :=
  ('a' ≤ c && c ≤ 'z') || ('A' ≤ c && c ≤ 'Z') || ('0' ≤ c && c ≤ '9') || c = '_'

/-- Model of the regex substitution used by the loader: every character
outside `[A-Za-z0-9_]` becomes an underscore (dbload.py lines 616, 621,
651, 652). -/
def sanitize_identifier (s : String) : String :=
  String.mk (s.data.map (fun c => if isIdentChar c then c else '_'))

/-- One column of a confirmed schema: the `name`/`type` fields of the schema
dictionaries built by `SchemaManager.detect_schema` (the `preview` field is
display-only and not part of any verified claim). -/
structure Col where
  name : String
  ctype : String
deriving DecidableEq, Repr

/-- The SQL text built by `DatabaseManager.create_table`
(dbload.py lines 615-624). -/
def create_table_sql (tableName : String) (schema : List Col) : String :=
  let t := sanitize_identifier tableName
  let columns := schema.map (fun col => "\"" ++ sanitize_identifier col.name ++ "\" " ++ col.ctype)
  "CREATE TABLE IF NOT EXISTS \"" ++ t ++ "\" (" ++ strJoin ", " columns ++ ")"

/-- The SQL text built by `DatabaseManager.insert_data`
(dbload.py lines 650-657). -/
def insert_sql (tableName : String) (schema : List Col) : String :=
  let t := sanitize_identifier tableName
  let colNames := schema.map (fun col => sanitize_identifier col.name)
  let quotedCols := strJoin ", " (colNames.map (fun n => "\"" ++ n ++ "\""))
  let placeholders := strJoin ", " (colNames.map (fun _ => "?"))
  "INSERT INTO \"" ++ t ++ "\" (" ++ quotedCols ++ ") VALUES (" ++ placeholders ++ ")"

/-- The visible state of the SQLite connection: rows committed to the target
table, and rows inserted in the currently open (not yet committed)
transaction. -/
structure Store where
  committed : List (List SqlValue)
  pending : List (List SqlValue)
deriving DecidableEq, Repr

/-- Model of a connection commit: the pending transaction becomes visible. -/
def commitStore (st : Store) : Store := ⟨st.committed ++ st.pending, []⟩

/-- Model of a connection rollback: the pending transaction is discarded. -/
def rollbackStore (st : Store) : Store := ⟨st.committed, []⟩

/-- Model of an executemany call on the connection: appends the batch to the
open transaction, or raises (any batch-insert statement error, supplied by the
environment oracle `fails`). -/
def executemany (fails : List (List SqlValue) → Bool) (st : Store)
    (batch : List (List SqlValue)) : Except PyErr Store :=
  if fails batch then Except.error PyErr.valueError
  else Except.ok { st with pending := st.pending ++ batch }

/-- Sequencing of fallible conversions in source order, first failure wins
(the per-row/per-batch loops of `insert_data`). -/
def mapExcept {α β : Type} (f : α → Except PyErr β) : List α → Except PyErr (List β)
  | [] => Except.ok []
  | a :: as =>
    match f a with
    | Except.error e => Except.error e
    | Except.ok b =>
      match mapExcept f as with
      | Except.error e => Except.error e
      | Except.ok bs => Except.ok (b :: bs)

/-- Row conversion inside `insert_data` (dbload.py lines 672-678): right-pad
the row with empty strings to the schema width, truncate to the schema width,
and coerce each value to its column's type. -/
def convert_row (schema : List Col) (row : List String) : Except PyErr (List SqlValue) :=
  let padded := row ++ List.replicate (schema.length - row.length) ""
  mapExcept (fun vc => convert_value vc.1 vc.2.ctype) ((padded.take schema.length).zip schema)

/-- Fuelled worker for `chunks`; the fuel is an upper bound on the list
length, so the `fuel = 0` case is never reached by `chunks`. -/
def chunksF {α : Type} : Nat → Nat → List α → List (List α)
  | _, _, [] => []
  | 0, _, l => [l]
  | f + 1, n, x :: xs => (x :: xs.take (n - 1)) :: chunksF f n (xs.drop (n - 1))

/-- Batch slicing of the row list into fixed-size batches. -/
def chunks {α : Type} (n : Nat) (l : List α) : List (List α) :=
  chunksF l.length n l

/-- The batch loop of `insert_data` (dbload.py lines 666-688): convert each
batch and execute it; the first exception (a conversion error or a failing
statement) aborts the loop with the store as it stands. -/
def insertBatches (fails : List (List SqlValue) → Bool) (schema : List Col) :
    List (List (List String)) → Store → Except Store Store
  | [], st => Except.ok st
  | batch :: rest, st =>
    match mapExcept (convert_row schema) batch with
    | Except.error _ => Except.error st
    | Except.ok batchData =>
      match executemany fails st batchData with
      | Except.error _ => Except.error st
      | Except.ok st2 => insertBatches fails schema rest st2

/-- Model of `DatabaseManager.insert_data` (dbload.py lines 633-695): no-op on an empty
row list; otherwise insert in batches of 1000 and commit once after the loop;
any exception inside the `try` triggers `self.conn.rollback()` and re-raising
(`false` in the result).  The SQL text itself (`insert_sql`) carries no row
data and is modelled separately. -/
def insert_data (fails : List (List SqlValue) → Bool) (_tableName : String)
    (schema : List Col) (rows : List (List String)) (st : Store) : Bool × Store :=
  if rows = [] then (true, st)
  else
    match insertBatches fails schema (chunks 1000 rows) st with
    | Except.ok st2 => (true, commitStore st2)
    | Except.error stE => (false, rollbackStore stE)

example : pyIntParses "  +5 " = true := by decide
example : pyIntParses "5." = false := by decide
example : pyIntParses "1_0" = true := by decide
example : pyIntParses "1__0" = false := by decide
example : pyFloat "3.0" = some (PyFloat.finite 30 (-1)) := by decide
example : pyFloat ".5" = some (PyFloat.finite 5 (-1)) := by decide
example : pyFloat "1." = some (PyFloat.finite 1 0) := by decide
example : pyFloat "-2e3" = some (PyFloat.finite (-2) 3) := by decide
example : pyFloat "x" = none := by decide
example : pyFloat "." = none := by decide
example : pyFloat "1e" = none := by decide
example : pyFloat "INF" = some (PyFloat.inf false) := by decide
example : pyFloat "-Infinity" = some (PyFloat.inf true) := by decide
example : pyFloat "nan" = some PyFloat.nan := by decide
example : convert_value "3.0" "INTEGER" = Except.ok (SqlValue.int 3) := by decide
example : convert_value "-2.7" "INTEGER" = Except.ok (SqlValue.int (-2)) := by decide
example : convert_value " x " "INTEGER" = Except.ok (SqlValue.text "x") := by decide
example : convert_value "inf" "INTEGER" = Except.error PyErr.overflowError := by decide
example : convert_value "  " "REAL" = Except.ok SqlValue.null := by decide
example : pyLines "a\nb\n" = ["a", "b"] := by decide
example : pyLines "" = [] := by decide
example : pySplit "a,,b" ',' = ["a", "", "b"] := by decide
example : pySplit "" ',' = [""] := by decide
example : json_loads "\x7b\"a\":1\x7d" = some (JVal.obj [("a", JVal.int 1)]) := rfl
example : json_loads " [1, 2.5, \"x\", true, null] " =
    some (JVal.arr [JVal.int 1, JVal.float 25 (-1), JVal.str "x", JVal.bool true, JVal.null]) := rfl
example : json_loads "\x7b\"a\":1\x7d\n\x7b\"b\":2\x7d" = none := rfl
example : json_loads "" = none := rfl
example : json_loads "01" = none := rfl
example : json_loads "\x7b\"a\": \x7b\"b\": [1]\x7d\x7d" =
    some (JVal.obj [("a", JVal.obj [("b", JVal.arr [JVal.int 1])])]) := rfl
example : json_loads "not json" = none := rfl
example : json_loads "\x7b\"a\":1, \"a\":2, \"c\":3\x7d" =
    some (JVal.obj [("a", JVal.int 2), ("c", JVal.int 3)]) := rfl
example : json_loads "1e2" = some (JVal.float 1 2) := rfl
example : load_json "\x7b\"a\":1\x7d\n\x7b\"b\":2\x7d" =
    Except.ok (LoadResult.four ["a", "b"] [["1", ""], ["", "2"]] true [["1", ""], ["", "2"]]) := by decide
example : load_json "[\x7b\"a\":1,\"b\":2\x7d,\x7b\"a\":3,\"b\":4\x7d]" =
    Except.ok (LoadResult.four ["a", "b"] [["1", "2"], ["3", "4"]] true [["1", "2"], ["3", "4"]]) := by decide
example : load_json "" = Except.ok (LoadResult.four [] [] false []) := rfl
example : ∀ sniff, load_csv sniff "" = LoadResult.three [] [] false := fun _ => rfl
example : load_text "" = LoadResult.three [] [] false := rfl
example : ∀ sniff, detect_and_load sniff ".csv" "" = Except.error PyErr.valueError :=
  fun _ => rfl
example : ∀ sniff, detect_and_load sniff ".json" "" =
    Except.ok ([], [], false, "JSON", []) := fun _ => rfl
example : load_text "name value\nx 1\n" =
    LoadResult.four ["name", "value"] [["x", "1"]] true [["name", "value"], ["x", "1"]] := by decide
example : splitWsQuoted "a \"b c\" d" = ["a", "b c", "d"] := by decide
example : sanitize_identifier "my table!" = "my_table_" := by decide
example : create_table_sql "t x" [⟨"a b", "TEXT"⟩, ⟨"c", "INTEGER"⟩] =
    "CREATE TABLE IF NOT EXISTS \"t_x\" (\"a_b\" TEXT, \"c\" INTEGER)" := by decide
example : insert_sql "t" [⟨"a", "TEXT"⟩, ⟨"c", "INTEGER"⟩] =
    "INSERT INTO \"t\" (\"a\", \"c\") VALUES (?, ?)" := by decide
example : chunks 2 [1, 2, 3, 4, 5] = [[1, 2], [3, 4], [5]] := by decide
example : convert_row [⟨"a", "INTEGER"⟩, ⟨"b", "TEXT"⟩] [" 7 "] =
    Except.ok [SqlValue.int 7, SqlValue.null] := by decide
example : convert_row [⟨"a", "INTEGER"⟩] ["1", "2", "3"] =
    Except.ok [SqlValue.int 1] := by decide
example : insert_data (fun _ => false) "t" [⟨"a", "INTEGER"⟩] [["1"], ["x"]] ⟨[], []⟩ =
    (true, ⟨[[SqlValue.int 1], [SqlValue.text "x"]], []⟩) := by decide
example : insert_data (fun _ => true) "t" [⟨"a", "INTEGER"⟩] [["1"]] ⟨[[SqlValue.int 9]], []⟩ =
    (false, ⟨[[SqlValue.int 9]], []⟩) := by decide
example : insert_data (fun _ => false) "t" [⟨"a", "INTEGER"⟩] [["inf"]] ⟨[], []⟩ =
    (false, ⟨[], []⟩) := by decide

/-! ## Helper lemmas (shared) -/

theorem mapExcept_ok_length {α β : Type} {f : α → Except PyErr β} {l : List α}
    {out : List β} (h : mapExcept f l = Except.ok out) : out.length = l.length := by
  induction l generalizing out with
  | nil => simp only [mapExcept] at h; cases h; rfl
  | cons a as ih =>
    simp only [mapExcept] at h
    cases hfa : f a with
    | error e => rw [hfa] at h; cases h
    | ok b =>
      rw [hfa] at h
      cases hm : mapExcept f as with
      | error e => rw [hm] at h; cases h
      | ok bs => rw [hm] at h; cases h; simp [ih hm]

theorem mapExcept_ok_getElem? {α β : Type} {f : α → Except PyErr β} {l : List α}
    {out : List β} (h : mapExcept f l = Except.ok out) {j : Nat} {a : α}
    (hj : l[j]? = some a) : out[j]? = (f a).toOption := by
  induction l generalizing out j with
  | nil => simp at hj
  | cons x xs ih =>
    simp only [mapExcept] at h
    cases hfa : f x with
    | error e => rw [hfa] at h; cases h
    | ok b =>
      rw [hfa] at h
      cases hm : mapExcept f xs with
      | error e => rw [hm] at h; cases h
      | ok bs =>
        rw [hm] at h; cases h
        cases j with
        | zero =>
          simp only [List.getElem?_cons_zero, Option.some_inj] at hj
          subst hj; simp [hfa, Except.toOption]
        | succ i => simp only [List.getElem?_cons_succ] at hj ⊢; exact ih hm hj

theorem mapExcept_append {α β : Type} (f : α → Except PyErr β) (l₁ l₂ : List α)
    {b₁ b₂ : List β} (h₁ : mapExcept f l₁ = Except.ok b₁)
    (h₂ : mapExcept f l₂ = Except.ok b₂) :
    mapExcept f (l₁ ++ l₂) = Except.ok (b₁ ++ b₂) := by
  induction l₁ generalizing b₁ with
  | nil => simp only [mapExcept] at h₁; cases h₁; simpa using h₂
  | cons a as ih =>
    simp only [mapExcept] at h₁ ⊢
    cases hfa : f a with
    | error e => rw [hfa] at h₁; cases h₁
    | ok b =>
      rw [hfa] at h₁
      cases hm : mapExcept f as with
      | error e => rw [hm] at h₁; cases h₁
      | ok bs =>
        rw [hm] at h₁; cases h₁
        simp only [List.cons_append, mapExcept, hfa, List.append_eq, ih hm]

theorem zip_getElem? {α β : Type} (l₁ : List α) (l₂ : List β) (j : Nat) :
    (l₁.zip l₂)[j]? =
      match l₁[j]?, l₂[j]? with
      | some a, some b => some (a, b)
      | _, _ => none := by
  induction l₁ generalizing l₂ j with
  | nil => simp
  | cons a as ih =>
    cases l₂ with
    | nil => simp
    | cons b bs =>
      cases j with
      | zero => simp [List.zip_cons_cons]
      | succ i => simpa [List.zip_cons_cons] using ih bs i

theorem chunksF_flatten {α : Type} (n : Nat) :
    ∀ (f : Nat) (l : List α), l.length ≤ f → (chunksF f n l).flatten = l := by
  intro f
  induction f with
  | zero =>
    intro l hl
    cases l with
    | nil => rfl
    | cons x xs => simp at hl
  | succ f ih =>
    intro l hl
    cases l with
    | nil => rfl
    | cons x xs =>
      simp only [chunksF, List.flatten_cons]
      rw [ih (xs.drop (n - 1)) (by simp at hl ⊢; omega)]
      simp [List.take_append_drop]

theorem chunks_flatten {α : Type} (n : Nat) (l : List α) : (chunks n l).flatten = l :=
  chunksF_flatten n l.length l le_rfl

theorem sanitize_idem_aux (s : String) :
    sanitize_identifier (sanitize_identifier s) = sanitize_identifier s := by
  simp only [sanitize_identifier, List.map_map]
  congr 1
  apply List.map_congr_left
  intro c _
  by_cases h : isIdentChar c = true
  · simp [Function.comp, h]
  · simp [Function.comp, h]

theorem convert_value_blank (t : String) : convert_value "" t = Except.ok SqlValue.null := rfl

theorem natDiv_bounds (n D : Nat) (hD : 0 < D) :
    ((n / D : Nat) : ℚ) ≤ (n : ℚ) / (D : ℚ) ∧ (n : ℚ) / (D : ℚ) < ((n / D : Nat) : ℚ) + 1 := by
  have hDq : (0 : ℚ) < (D : ℚ) := by exact_mod_cast hD
  have h1 : n / D * D ≤ n := Nat.div_mul_le_self n D
  have h2 : n < D * (n / D) + D := by
    have := Nat.div_add_mod n D
    have hm := Nat.mod_lt n hD
    omega
  constructor
  · rw [le_div_iff₀ hDq]
    exact_mod_cast h1
  · rw [div_lt_iff₀ hDq]
    have : (n : ℚ) < (D : ℚ) * ((n / D : Nat) : ℚ) + (D : ℚ) := by exact_mod_cast h2
    linarith

theorem truncSigExp_spec (sig e : Int) :
    |((truncSigExp sig e : Int) : ℚ)| ≤ |sigExpVal sig e| ∧
    |sigExpVal sig e| < |((truncSigExp sig e : Int) : ℚ)| + 1 := by
  unfold truncSigExp sigExpVal
  by_cases he : 0 ≤ e
  · rw [if_pos he]
    have hx : ((sig * 10 ^ e.toNat : Int) : ℚ) = (sig : ℚ) * 10 ^ e := by
      push_cast
      rw [← zpow_natCast (10 : ℚ) e.toNat, Int.toNat_of_nonneg he]
    rw [hx]
    exact ⟨le_refl _, by linarith [abs_nonneg ((sig : ℚ) * 10 ^ e)]⟩
  · rw [if_neg he]
    push_neg at he
    set k := (-e).toNat with hk
    have hek : e = -(k : Int) := by omega
    have hD : (0 : Nat) < 10 ^ k := Nat.pos_pow_of_pos k (by omega)
    have hpow : (10 : ℚ) ^ e = (((10 ^ k : Nat) : ℚ))⁻¹ := by
      rw [hek, zpow_neg, zpow_natCast]
      congr 1
      norm_cast
    have habs : |(sig : ℚ) * 10 ^ e| = (sig.natAbs : ℚ) / ((10 ^ k : Nat) : ℚ) := by
      rw [hpow, abs_mul, abs_inv, div_eq_mul_inv, Int.cast_natAbs]
      congr 2
      · simp [Int.cast_abs]
      · rw [abs_of_nonneg (by positivity : (0 : ℚ) ≤ ((10 ^ k : Nat) : ℚ))]
    rcases Int.lt_trichotomy sig 0 with hs | hs | hs
    · have hsign : sig.sign = -1 := Int.sign_eq_neg_one_of_neg hs
      have hcast : |((sig.sign * ((sig.natAbs / 10 ^ k : Nat) : Int) : Int) : ℚ)| =
          ((sig.natAbs / 10 ^ k : Nat) : ℚ) := by
        rw [hsign, neg_one_mul, Int.cast_neg, abs_neg, Int.cast_natCast,
          abs_of_nonneg (by positivity : (0 : ℚ) ≤ ((sig.natAbs / 10 ^ k : Nat) : ℚ))]
      rw [hcast, habs]
      exact natDiv_bounds sig.natAbs (10 ^ k) hD
    · subst hs
      simp
    · have hsign : sig.sign = 1 := Int.sign_eq_one_of_pos hs
      have hcast : |((sig.sign * ((sig.natAbs / 10 ^ k : Nat) : Int) : Int) : ℚ)| =
          ((sig.natAbs / 10 ^ k : Nat) : ℚ) := by
        rw [hsign, one_mul, Int.cast_natCast,
          abs_of_nonneg (by positivity : (0 : ℚ) ≤ ((sig.natAbs / 10 ^ k : Nat) : ℚ))]
      rw [hcast, habs]
      exact natDiv_bounds sig.natAbs (10 ^ k) hD

theorem take_getElem? {α : Type} (l : List α) (n i : Nat) (h : i < n) :
    (l.take n)[i]? = l[i]? := by
  induction l generalizing n i with
  | nil => simp
  | cons a as ih =>
    cases n with
    | zero => omega
    | succ m =>
      cases i with
      | zero => simp
      | succ i' => simp only [List.take_succ_cons, List.getElem?_cons_succ]; exact ih m i' (by omega)

theorem convert_row_truncate_aux (schema : List Col) (r : List String) :
    convert_row schema r = convert_row schema (r.take schema.length) := by
  simp only [convert_row]
  have hlist : (r ++ List.replicate (schema.length - r.length) "").take schema.length
      = ((r.take schema.length) ++
          List.replicate (schema.length - (r.take schema.length).length) "").take schema.length := by
    by_cases hr : r.length ≤ schema.length
    · rw [List.take_of_length_le hr]
    · push_neg at hr
      have h0 : schema.length - r.length = 0 := by omega
      have h1 : (r.take schema.length).length = schema.length := by
        rw [List.length_take]
        omega
      rw [h0, h1, Nat.sub_self]
      simp [List.take_take]
  rw [hlist]

/-- Claim C8 (status: confirmed).  `insert_data` right-pads short rows with
empty strings and truncates long rows to the schema width before coercion:
a successfully converted row has exactly one value per schema column, every
column position beyond the raw row's length holds `null` (the blank pad value
coerces to `None`), and conversion of any row only ever depends on its first
`len(schema)` cells. -/
theorem convert_row_pad_truncate (schema : List Col) (row row2 : List String)
    (out : List SqlValue) (j : Nat) (h : convert_row schema row = Except.ok out)
    (h1 : row.length ≤ j) (h2 : j < schema.length) :
    out.length = schema.length ∧
    out[j]? = some SqlValue.null ∧
    convert_row schema row2 = convert_row schema (row2.take schema.length) := by
  refine ⟨?_, ?_, convert_row_truncate_aux schema row2⟩
  · have := mapExcept_ok_length h
    rw [this, List.length_zip, List.length_take, List.length_append, List.length_replicate]
    omega
  · have hpad : (row ++ List.replicate (schema.length - row.length) "")[j]? = some "" := by
      rw [List.getElem?_append_right h1, List.getElem?_replicate]
      rw [if_pos (by omega)]
    have htake : ((row ++ List.replicate (schema.length - row.length) "").take
        schema.length)[j]? = some "" := by
      rw [take_getElem? _ _ _ h2]
      exact hpad
    have hcol : schema[j]? = some schema[j] := List.getElem?_eq_getElem h2
    have hzip : (((row ++ List.replicate (schema.length - row.length) "").take
        schema.length).zip schema)[j]? = some ("", schema[j]) := by
      rw [zip_getElem?, htake, hcol]
    have := mapExcept_ok_getElem? h hzip
    rw [this]
    rfl

/-- Witness for C8 at a concrete input. -/
theorem convert_row_pad_truncate_witness :
    ([SqlValue.text "x", SqlValue.null] : List SqlValue).length =
      ([⟨"a", "TEXT"⟩, ⟨"b", "INTEGER"⟩] : List Col).length ∧
    ([SqlValue.text "x", SqlValue.null] : List SqlValue)[1]? = some SqlValue.null ∧
    convert_row [⟨"a", "TEXT"⟩, ⟨"b", "INTEGER"⟩] ["1", "2", "3"] =
      convert_row [⟨"a", "TEXT"⟩, ⟨"b", "INTEGER"⟩]
        (["1", "2", "3"].take ([⟨"a", "TEXT"⟩, ⟨"b", "INTEGER"⟩] : List Col).length) :=
  convert_row_pad_truncate [⟨"a", "TEXT"⟩, ⟨"b", "INTEGER"⟩] ["x"] ["1", "2", "3"]
    [SqlValue.text "x", SqlValue.null] 1 (by decide) (by decide) (by decide)

theorem insertBatches_error (fails : List (List SqlValue) → Bool) (schema : List Col)
    (bs : List (List (List String))) (st stE : Store)
    (h : insertBatches fails schema bs st = Except.error stE) :
    stE.committed = st.committed := by
  induction bs generalizing st with
  | nil => simp [insertBatches] at h
  | cons b rest ih =>
    simp only [insertBatches] at h
    cases hm : mapExcept (convert_row schema) b with
    | error e => rw [hm] at h; cases h; rfl
    | ok data =>
      rw [hm] at h
      by_cases hf : fails data = true
      · simp only [executemany, if_pos hf] at h
        cases h; rfl
      · simp only [executemany, if_neg hf] at h
        have := ih _ h
        exact this

theorem insertBatches_ok (fails : List (List SqlValue) → Bool) (schema : List Col)
    (bs : List (List (List String))) (st st2 : Store)
    (h : insertBatches fails schema bs st = Except.ok st2) :
    st2.committed = st.committed ∧
    ∃ L, mapExcept (convert_row schema) bs.flatten = Except.ok L ∧
      st2.pending = st.pending ++ L := by
  induction bs generalizing st with
  | nil =>
    simp only [insertBatches] at h
    cases h
    exact ⟨rfl, [], rfl, by simp⟩
  | cons b rest ih =>
    simp only [insertBatches] at h
    cases hm : mapExcept (convert_row schema) b with
    | error e => rw [hm] at h; cases h
    | ok data =>
      rw [hm] at h
      by_cases hf : fails data = true
      · simp only [executemany, if_pos hf] at h
        cases h
      · simp only [executemany, if_neg hf] at h
        obtain ⟨hc, L, hL, hp⟩ := ih _ h
        refine ⟨hc, data ++ L, ?_, ?_⟩
        · rw [List.flatten_cons]
          exact mapExcept_append _ _ _ hm hL
        · rw [hp]
          simp [List.append_assoc]

/-- Claim C2 (status: confirmed).  For every load via `insert_data` the commit
is the single last step of the call: the post-state never has an open
transaction, a failed call (any batch statement failure or conversion
exception anywhere) leaves the committed store exactly as it was — the rows
already inserted by earlier batches of the call are rolled back — and a
successful call commits exactly the full file's converted rows, appended
atomically. -/
theorem insert_data_atomic (fails : List (List SqlValue) → Bool) (t : String)
    (schema : List Col) (rows : List (List String)) (st : Store)
    (h : st.pending = []) :
    (insert_data fails t schema rows st).2.pending = [] ∧
    ((insert_data fails t schema rows st).1 = false →
      (insert_data fails t schema rows st).2.committed = st.committed) ∧
    ((insert_data fails t schema rows st).1 = true →
      (insert_data fails t schema rows st).2.committed =
        st.committed ++ (mapExcept (convert_row schema) rows).toOption.getD []) := by
  by_cases hr : rows = []
  · subst hr
    simp [insert_data, h, mapExcept, Except.toOption]
  · simp only [insert_data, if_neg hr]
    cases hres : insertBatches fails schema (chunks 1000 rows) st with
    | ok st2 =>
      obtain ⟨hc, L, hL, hp⟩ := insertBatches_ok fails schema _ st st2 hres
      rw [chunks_flatten 1000 rows] at hL
      refine ⟨rfl, ?_, ?_⟩
      · intro hx
        simp at hx
      · intro _
        show (commitStore st2).committed = _
        simp only [commitStore]
        rw [hc, hp, h, List.nil_append, hL]
        simp [Except.toOption]
    | error stE =>
      have hc := insertBatches_error fails schema _ st stE hres
      refine ⟨rfl, fun _ => hc, ?_⟩
      intro hx
      simp at hx

/-- Witness for C2 at a concrete input (a failing batch statement: the store
is left untouched and no transaction stays open). -/
theorem insert_data_atomic_witness :
    (insert_data (fun _ => true) "t" [⟨"a", "INTEGER"⟩] [["1"]] ⟨[], []⟩).2.pending = [] ∧
    ((insert_data (fun _ => true) "t" [⟨"a", "INTEGER"⟩] [["1"]] ⟨[], []⟩).1 = false →
      (insert_data (fun _ => true) "t" [⟨"a", "INTEGER"⟩] [["1"]] ⟨[], []⟩).2.committed =
        (⟨[], []⟩ : Store).committed) ∧
    ((insert_data (fun _ => true) "t" [⟨"a", "INTEGER"⟩] [["1"]] ⟨[], []⟩).1 = true →
      (insert_data (fun _ => true) "t" [⟨"a", "INTEGER"⟩] [["1"]] ⟨[], []⟩).2.committed =
        (⟨[], []⟩ : Store).committed ++
          (mapExcept (convert_row [⟨"a", "INTEGER"⟩]) [["1"]]).toOption.getD []) :=
  insert_data_atomic (fun _ => true) "t" [⟨"a", "INTEGER"⟩] [["1"]] ⟨[], []⟩ rfl

theorem classify_intLike (v : String) :
    (classify v == ValKind.intLike) = pyIntParses v := by
  unfold classify
  by_cases hi : pyIntParses v = true
  · rw [if_pos hi, hi]; rfl
  · rw [if_neg hi, Bool.not_eq_true] at *
    rw [hi]
    by_cases hf : (pyFloat v).isSome = true
    · rw [if_pos hf]; rfl
    · rw [if_neg hf]; rfl

theorem classify_realLike (v : String) :
    (classify v == ValKind.realLike) = (!pyIntParses v && (pyFloat v).isSome) := by
  unfold classify
  by_cases hi : pyIntParses v = true
  · rw [if_pos hi, hi]; rfl
  · rw [if_neg hi, Bool.not_eq_true] at *
    rw [hi]
    by_cases hf : (pyFloat v).isSome = true
    · rw [if_pos hf, hf]; rfl
    · rw [if_neg hf, Bool.not_eq_true] at *
      rw [hf]; rfl

/-- Claim C4 (status: confirmed).  `detect_type` behaves exactly as the
specification words it: blank/whitespace-only entries are discarded (TEXT if
none remain), each remaining value is classified as integer-parseable /
real-parseable-but-not-integer / neither, INTEGER is returned when the numeric
ratio reaches 4/5 with no real values, REAL when it reaches 4/5 with some real
value, TEXT otherwise; and in particular
`detect_type ["1","2","x","4","5"] = INTEGER`. -/
theorem detect_type_matches_spec (values : List String) :
    detect_type values = detect_type_spec values ∧
    detect_type ["1", "2", "x", "4", "5"] = "INTEGER" := by
  have hgen : ∀ vs : List String, detect_type vs = detect_type_spec vs := by
    intro vs
    by_cases h0 : vs = []
    · subst h0; rfl
    · simp only [detect_type, detect_type_spec, if_neg h0]
      set kept := (vs.map pyStrip).filter (fun v => v ≠ "") with hkept
      by_cases h1 : kept = []
      · simp [h1]
      · simp only [if_neg h1]
        have e1 : (fun v => classify v == ValKind.intLike) = (fun v => pyIntParses v) :=
          funext classify_intLike
        have e2 : (fun v => classify v == ValKind.realLike) =
            (fun v => !pyIntParses v && (pyFloat v).isSome) :=
          funext classify_realLike
        rw [e1, e2]
        set n := kept.countP (fun v => pyIntParses v) with hn
        set r := kept.countP (fun v => !pyIntParses v && (pyFloat v).isSome) with hr
        have hlen : 0 < kept.length := List.length_pos.mpr h1
        have hcond : (((n + r : ℕ) : ℚ) / ((kept.length : ℕ) : ℚ) ≥ 4 / 5) ↔
            (4 * kept.length ≤ 5 * (n + r)) := by
          rw [ge_iff_le,
            div_le_div_iff₀ (by norm_num : (0 : ℚ) < 5)
              (by exact_mod_cast hlen : (0 : ℚ) < ((kept.length : ℕ) : ℚ))]
          constructor
          · intro hx
            have hx2 : (4 * kept.length : ℕ) ≤ ((n + r) * 5 : ℕ) := by exact_mod_cast hx
            omega
          · intro hx
            have hx2 : ((4 * kept.length : ℕ) : ℚ) ≤ (((n + r) * 5 : ℕ) : ℚ) := by
              exact_mod_cast (by omega : 4 * kept.length ≤ (n + r) * 5)
            push_cast at hx2 ⊢
            linarith
        exact if_congr hcond rfl rfl
  exact ⟨hgen values, by rw [hgen]; decide⟩

theorem foldl_best_mem (f : Char → ℚ) (ds : List Char) (b : Char) :
    ds.foldl (fun acc x => if f acc < f x then x else acc) b ∈ b :: ds := by
  induction ds generalizing b with
  | nil => simp
  | cons d rest ih =>
    simp only [List.foldl_cons]
    by_cases h : f b < f d
    · rw [if_pos h]
      exact List.mem_cons_of_mem b (ih d)
    · rw [if_neg h]
      rcases List.mem_cons.mp (ih b) with h1 | h1
      · rw [h1]; exact List.mem_cons_self _ _
      · exact List.mem_cons_of_mem b (List.mem_cons_of_mem d h1)

theorem foldl_best_ge (f : Char → ℚ) (ds : List Char) :
    ∀ (b x : Char), x ∈ b :: ds →
      f x ≤ f (ds.foldl (fun acc y => if f acc < f y then y else acc) b) := by
  induction ds with
  | nil =>
    intro b x hx
    simp only [List.mem_singleton] at hx
    rw [hx]
    simp
  | cons d rest ih =>
    intro b x hx
    simp only [List.foldl_cons]
    have hbb2 : f b ≤ f (if f b < f d then d else b) := by
      by_cases h : f b < f d
      · rw [if_pos h]; linarith
      · rw [if_neg h]
    have hdb2 : f d ≤ f (if f b < f d then d else b) := by
      by_cases h : f b < f d
      · rw [if_pos h]
      · rw [if_neg h]; exact not_lt.mp h
    rcases List.mem_cons.mp hx with h1 | h1
    · rw [h1]
      exact le_trans hbb2 (ih _ _ (List.mem_cons_self _ _))
    · rcases List.mem_cons.mp h1 with h2 | h2
      · rw [h2]
        exact le_trans hdb2 (ih _ _ (List.mem_cons_self _ _))
      · exact ih _ _ (List.mem_cons_of_mem _ h2)

theorem pickBest_mem (f : Char → ℚ) : pickBest f delimiters ∈ delimiters :=
  foldl_best_mem f [';', '|', '\t'] ','

theorem pickBest_ge (f : Char → ℚ) (x : Char) (hx : x ∈ delimiters) :
    f x ≤ f (pickBest f delimiters) :=
  foldl_best_ge f [';', '|', '\t'] ',' x hx

theorem delimScoreSemiFacts :
    delimScore ',' ["a;b;c", "1;2;3"] = 0 ∧
    delimScore ';' ["a;b;c", "1;2;3"] = 3 ∧
    delimScore '|' ["a;b;c", "1;2;3"] = 0 ∧
    delimScore '\t' ["a;b;c", "1;2;3"] = 0 := by
  refine ⟨?_, ?_, ?_, ?_⟩
  · have hfc : fieldCounts ',' ["a;b;c", "1;2;3"] = [1, 1] := by decide
    simp only [delimScore]
    rw [hfc]
    rw [if_neg (by decide : ¬ _ = ([] : List Nat))]
    norm_num [List.sum_cons, List.sum_nil]
  · have hfc : fieldCounts ';' ["a;b;c", "1;2;3"] = [3, 3] := by decide
    have hmax : listMax [3, 3] = 3 := by decide
    have hmin : listMin [3, 3] = 3 := by decide
    simp only [delimScore]
    rw [hfc, hmax, hmin]
    rw [if_neg (by decide : ¬ _ = ([] : List Nat))]
    norm_num [List.sum_cons, List.sum_nil]
  · have hfc : fieldCounts '|' ["a;b;c", "1;2;3"] = [1, 1] := by decide
    simp only [delimScore]
    rw [hfc]
    rw [if_neg (by decide : ¬ _ = ([] : List Nat))]
    norm_num [List.sum_cons, List.sum_nil]
  · have hfc : fieldCounts '\t' ["a;b;c", "1;2;3"] = [1, 1] := by decide
    simp only [delimScore]
    rw [hfc]
    rw [if_neg (by decide : ¬ _ = ([] : List Nat))]
    norm_num [List.sum_cons, List.sum_nil]

theorem delimScoreCommaFacts :
    delimScore ',' ["a,b,c", "1,2,3", "4,5,6"] = 3 ∧
    delimScore ';' ["a,b,c", "1,2,3", "4,5,6"] = 0 ∧
    delimScore '|' ["a,b,c", "1,2,3", "4,5,6"] = 0 ∧
    delimScore '\t' ["a,b,c", "1,2,3", "4,5,6"] = 0 := by
  refine ⟨?_, ?_, ?_, ?_⟩
  · have hfc : fieldCounts ',' ["a,b,c", "1,2,3", "4,5,6"] = [3, 3, 3] := by decide
    have hmax : listMax [3, 3, 3] = 3 := by decide
    have hmin : listMin [3, 3, 3] = 3 := by decide
    simp only [delimScore]
    rw [hfc, hmax, hmin]
    rw [if_neg (by decide : ¬ _ = ([] : List Nat))]
    norm_num [List.sum_cons, List.sum_nil]
  · have hfc : fieldCounts ';' ["a,b,c", "1,2,3", "4,5,6"] = [1, 1, 1] := by decide
    simp only [delimScore]
    rw [hfc]
    rw [if_neg (by decide : ¬ _ = ([] : List Nat))]
    norm_num [List.sum_cons, List.sum_nil]
  · have hfc : fieldCounts '|' ["a,b,c", "1,2,3", "4,5,6"] = [1, 1, 1] := by decide
    simp only [delimScore]
    rw [hfc]
    rw [if_neg (by decide : ¬ _ = ([] : List Nat))]
    norm_num [List.sum_cons, List.sum_nil]
  · have hfc : fieldCounts '\t' ["a,b,c", "1,2,3", "4,5,6"] = [1, 1, 1] := by decide
    simp only [delimScore]
    rw [hfc]
    rw [if_neg (by decide : ¬ _ = ([] : List Nat))]
    norm_num [List.sum_cons, List.sum_nil]

theorem delimScoreUnevenFacts :
    delimScore ',' ["a,a,a,a,a,a,a;b;b;b;b|c|c|c|c|c|c\td\td\td\td\td\td", "x"] = -2 ∧
    delimScore ';' ["a,a,a,a,a,a,a;b;b;b;b|c|c|c|c|c|c\td\td\td\td\td\td", "x"] = -1 ∧
    delimScore '|' ["a,a,a,a,a,a,a;b;b;b;b|c|c|c|c|c|c\td\td\td\td\td\td", "x"] = -2 ∧
    delimScore '\t' ["a,a,a,a,a,a,a;b;b;b;b|c|c|c|c|c|c\td\td\td\td\td\td", "x"] = -2 := by
  refine ⟨?_, ?_, ?_, ?_⟩
  · have hfc : fieldCounts ','
        ["a,a,a,a,a,a,a;b;b;b;b|c|c|c|c|c|c\td\td\td\td\td\td", "x"] = [7, 1] := by decide
    have hmax : listMax [7, 1] = 7 := by decide
    have hmin : listMin [7, 1] = 1 := by decide
    simp only [delimScore]
    rw [hfc, hmax, hmin]
    rw [if_neg (by decide : ¬ _ = ([] : List Nat))]
    norm_num [List.sum_cons, List.sum_nil]
  · have hfc : fieldCounts ';'
        ["a,a,a,a,a,a,a;b;b;b;b|c|c|c|c|c|c\td\td\td\td\td\td", "x"] = [5, 1] := by decide
    have hmax : listMax [5, 1] = 5 := by decide
    have hmin : listMin [5, 1] = 1 := by decide
    simp only [delimScore]
    rw [hfc, hmax, hmin]
    rw [if_neg (by decide : ¬ _ = ([] : List Nat))]
    norm_num [List.sum_cons, List.sum_nil]
  · have hfc : fieldCounts '|'
        ["a,a,a,a,a,a,a;b;b;b;b|c|c|c|c|c|c\td\td\td\td\td\td", "x"] = [7, 1] := by decide
    have hmax : listMax [7, 1] = 7 := by decide
    have hmin : listMin [7, 1] = 1 := by decide
    simp only [delimScore]
    rw [hfc, hmax, hmin]
    rw [if_neg (by decide : ¬ _ = ([] : List Nat))]
    norm_num [List.sum_cons, List.sum_nil]
  · have hfc : fieldCounts '\t'
        ["a,a,a,a,a,a,a;b;b;b;b|c|c|c|c|c|c\td\td\td\td\td\td", "x"] = [7, 1] := by decide
    have hmax : listMax [7, 1] = 7 := by decide
    have hmin : listMin [7, 1] = 1 := by decide
    simp only [delimScore]
    rw [hfc, hmax, hmin]
    rw [if_neg (by decide : ¬ _ = ([] : List Nat))]
    norm_num [List.sum_cons, List.sum_nil]

/-- Claim C5 (status: corrected).  The claim as stated is false on two
counts.  (1) Line selection: the code scores the non-empty lines among the
first 5 lines read, not the first at most 5 non-empty lines — a file opening
with five blank lines scores nothing and falls back to comma even though the
claim's procedure would pick the semicolon of the data below.  (2) Comma
default: a counted score can be negative (consistency goes negative when the
per-line field counts are wildly uneven), and the code returns comma whenever
the best score is not positive, not only "whenever all scores are zero" as the
claim says: on the second input every candidate scores negative, the claim's
procedure returns the highest-scoring semicolon, the code returns comma. -/
theorem detect_csv_delimiter_claim_counterexample :
    detect_csv_delimiter ["", "", "", "", "", "a;b;c", "1;2;3"] = ',' ∧
    detect_delimiter_claim ["", "", "", "", "", "a;b;c", "1;2;3"] = ';' ∧
    detect_csv_delimiter ["a,a,a,a,a,a,a;b;b;b;b|c|c|c|c|c|c\td\td\td\td\td\td", "x"] = ',' ∧
    detect_delimiter_claim ["a,a,a,a,a,a,a;b;b;b;b|c|c|c|c|c|c\td\td\td\td\td\td", "x"] = ';' ∧
    (',' : Char) ≠ ';' := by
  obtain ⟨s1, s2, s3, s4⟩ := delimScoreSemiFacts
  obtain ⟨u1, u2, u3, u4⟩ := delimScoreUnevenFacts
  refine ⟨?_, ?_, ?_, ?_, by decide⟩
  · have hz : ∀ d, delimScore d ["", "", "", "", ""] = 0 := fun d => rfl
    have hs : csvSample ["", "", "", "", "", "a;b;c", "1;2;3"] = ["", "", "", "", ""] := by decide
    simp only [detect_csv_delimiter, hs, pickBest, delimiters, List.foldl_cons,
      List.foldl_nil, hz]
    simp
  · have hs : claimSample ["", "", "", "", "", "a;b;c", "1;2;3"] = ["a;b;c", "1;2;3"] := by
      decide
    simp only [detect_delimiter_claim, hs, pickBest, delimiters, List.foldl_cons,
      List.foldl_nil]
    rw [if_neg (show ¬∀ d ∈ ([',', ';', '|', '\t'] : List Char),
        delimScore d ["a;b;c", "1;2;3"] = 0 by
      intro hall
      have h2 := hall ';' (by decide)
      rw [s2] at h2
      norm_num at h2)]
    rw [if_pos (show delimScore ',' ["a;b;c", "1;2;3"] < delimScore ';' ["a;b;c", "1;2;3"] by
      rw [s1, s2]; norm_num)]
    rw [if_neg (show ¬delimScore ';' ["a;b;c", "1;2;3"] < delimScore '|' ["a;b;c", "1;2;3"] by
      rw [s2, s3]; norm_num)]
    rw [if_neg (show ¬delimScore ';' ["a;b;c", "1;2;3"] < delimScore '\t' ["a;b;c", "1;2;3"] by
      rw [s2, s4]; norm_num)]
  · have hs : csvSample ["a,a,a,a,a,a,a;b;b;b;b|c|c|c|c|c|c\td\td\td\td\td\td", "x"] =
        ["a,a,a,a,a,a,a;b;b;b;b|c|c|c|c|c|c\td\td\td\td\td\td", "x"] := by decide
    simp only [detect_csv_delimiter, hs, pickBest, delimiters, List.foldl_cons,
      List.foldl_nil]
    rw [if_pos (show delimScore ',' ["a,a,a,a,a,a,a;b;b;b;b|c|c|c|c|c|c\td\td\td\td\td\td", "x"] <
        delimScore ';' ["a,a,a,a,a,a,a;b;b;b;b|c|c|c|c|c|c\td\td\td\td\td\td", "x"] by
      rw [u1, u2]; norm_num)]
    rw [if_neg (show ¬delimScore ';' ["a,a,a,a,a,a,a;b;b;b;b|c|c|c|c|c|c\td\td\td\td\td\td", "x"] <
        delimScore '|' ["a,a,a,a,a,a,a;b;b;b;b|c|c|c|c|c|c\td\td\td\td\td\td", "x"] by
      rw [u2, u3]; norm_num)]
    rw [if_neg (show ¬delimScore ';' ["a,a,a,a,a,a,a;b;b;b;b|c|c|c|c|c|c\td\td\td\td\td\td", "x"] <
        delimScore '\t' ["a,a,a,a,a,a,a;b;b;b;b|c|c|c|c|c|c\td\td\td\td\td\td", "x"] by
      rw [u2, u4]; norm_num)]
    rw [if_neg (show ¬(0 : ℚ) <
        delimScore ';' ["a,a,a,a,a,a,a;b;b;b;b|c|c|c|c|c|c\td\td\td\td\td\td", "x"] by
      rw [u2]; norm_num)]
  · have hs : claimSample ["a,a,a,a,a,a,a;b;b;b;b|c|c|c|c|c|c\td\td\td\td\td\td", "x"] =
        ["a,a,a,a,a,a,a;b;b;b;b|c|c|c|c|c|c\td\td\td\td\td\td", "x"] := by decide
    simp only [detect_delimiter_claim, hs, pickBest, delimiters, List.foldl_cons,
      List.foldl_nil]
    rw [if_neg (show ¬∀ d ∈ ([',', ';', '|', '\t'] : List Char),
        delimScore d ["a,a,a,a,a,a,a;b;b;b;b|c|c|c|c|c|c\td\td\td\td\td\td", "x"] = 0 by
      intro hall
      have h2 := hall ';' (by decide)
      rw [u2] at h2
      norm_num at h2)]
    rw [if_pos (show delimScore ',' ["a,a,a,a,a,a,a;b;b;b;b|c|c|c|c|c|c\td\td\td\td\td\td", "x"] <
        delimScore ';' ["a,a,a,a,a,a,a;b;b;b;b|c|c|c|c|c|c\td\td\td\td\td\td", "x"] by
      rw [u1, u2]; norm_num)]
    rw [if_neg (show ¬delimScore ';' ["a,a,a,a,a,a,a;b;b;b;b|c|c|c|c|c|c\td\td\td\td\td\td", "x"] <
        delimScore '|' ["a,a,a,a,a,a,a;b;b;b;b|c|c|c|c|c|c\td\td\td\td\td\td", "x"] by
      rw [u2, u3]; norm_num)]
    rw [if_neg (show ¬delimScore ';' ["a,a,a,a,a,a,a;b;b;b;b|c|c|c|c|c|c\td\td\td\td\td\td", "x"] <
        delimScore '\t' ["a,a,a,a,a,a,a;b;b;b;b|c|c|c|c|c|c\td\td\td\td\td\td", "x"] by
      rw [u2, u4]; norm_num)]

/-- Claim C5, amended (status: corrected).  Delimiter detection scores each
candidate in comma/semicolon/pipe/tab over the stripped non-empty lines among
the first at most 5 lines by `consistency * avg_field_count`, counted only
when the average field count is at least 2 (such a counted score may be
negative); the returned delimiter is always one of the four candidates, every
candidate's score is bounded by the maximum of the returned candidate's score
and 0, a non-comma result is only returned with a positive score (comma is the
fallback whenever no candidate scores positive), and on the two spec examples
the result is comma resp. semicolon. -/
theorem detect_csv_delimiter_spec (lines : List String) (c : Char) (hc : c ∈ delimiters) :
    detect_csv_delimiter lines ∈ delimiters ∧
    delimScore c (csvSample lines) ≤
      max (delimScore (detect_csv_delimiter lines) (csvSample lines)) 0 ∧
    (0 < delimScore (detect_csv_delimiter lines) (csvSample lines) ∨
      detect_csv_delimiter lines = ',') ∧
    detect_csv_delimiter ["a,b,c", "1,2,3", "4,5,6"] = ',' ∧
    detect_csv_delimiter ["a;b;c", "1;2;3"] = ';' := by
  obtain ⟨s1, s2, s3, s4⟩ := delimScoreSemiFacts
  obtain ⟨k1, k2, k3, k4⟩ := delimScoreCommaFacts
  have main : detect_csv_delimiter lines ∈ delimiters ∧
      delimScore c (csvSample lines) ≤
        max (delimScore (detect_csv_delimiter lines) (csvSample lines)) 0 ∧
      (0 < delimScore (detect_csv_delimiter lines) (csvSample lines) ∨
        detect_csv_delimiter lines = ',') := by
    simp only [detect_csv_delimiter]
    by_cases h : 0 < delimScore
        (pickBest (fun d => delimScore d (csvSample lines)) delimiters) (csvSample lines)
    · rw [if_pos h]
      refine ⟨pickBest_mem (fun d => delimScore d (csvSample lines)), ?_, Or.inl h⟩
      exact le_trans (pickBest_ge (fun d => delimScore d (csvSample lines)) c hc)
        (le_max_left _ _)
    · rw [if_neg h]
      push_neg at h
      refine ⟨by decide, ?_, Or.inr rfl⟩
      exact le_trans
        (le_trans (pickBest_ge (fun d => delimScore d (csvSample lines)) c hc) h)
        (le_max_right _ _)
  refine ⟨main.1, main.2.1, main.2.2, ?_, ?_⟩
  · have hs : csvSample ["a,b,c", "1,2,3", "4,5,6"] = ["a,b,c", "1,2,3", "4,5,6"] := by decide
    simp only [detect_csv_delimiter, hs, pickBest, delimiters, List.foldl_cons,
      List.foldl_nil]
    rw [if_neg (show ¬delimScore ',' ["a,b,c", "1,2,3", "4,5,6"] <
        delimScore ';' ["a,b,c", "1,2,3", "4,5,6"] by rw [k1, k2]; norm_num)]
    rw [if_neg (show ¬delimScore ',' ["a,b,c", "1,2,3", "4,5,6"] <
        delimScore '|' ["a,b,c", "1,2,3", "4,5,6"] by rw [k1, k3]; norm_num)]
    rw [if_neg (show ¬delimScore ',' ["a,b,c", "1,2,3", "4,5,6"] <
        delimScore '\t' ["a,b,c", "1,2,3", "4,5,6"] by rw [k1, k4]; norm_num)]
    rw [if_pos (show (0 : ℚ) < delimScore ',' ["a,b,c", "1,2,3", "4,5,6"] by
      rw [k1]; norm_num)]
  · have hs : csvSample ["a;b;c", "1;2;3"] = ["a;b;c", "1;2;3"] := by decide
    simp only [detect_csv_delimiter, hs, pickBest, delimiters, List.foldl_cons,
      List.foldl_nil]
    rw [if_pos (show delimScore ',' ["a;b;c", "1;2;3"] < delimScore ';' ["a;b;c", "1;2;3"] by
      rw [s1, s2]; norm_num)]
    rw [if_neg (show ¬delimScore ';' ["a;b;c", "1;2;3"] < delimScore '|' ["a;b;c", "1;2;3"] by
      rw [s2, s3]; norm_num)]
    rw [if_neg (show ¬delimScore ';' ["a;b;c", "1;2;3"] < delimScore '\t' ["a;b;c", "1;2;3"] by
      rw [s2, s4]; norm_num)]
    rw [if_pos (show (0 : ℚ) < delimScore ';' ["a;b;c", "1;2;3"] by rw [s2]; norm_num)]

/-- Witness for the amended C5 at a concrete input. -/
theorem detect_csv_delimiter_spec_witness :
    detect_csv_delimiter ["a;b;c", "1;2;3"] ∈ delimiters ∧
    delimScore ',' (csvSample ["a;b;c", "1;2;3"]) ≤
      max (delimScore (detect_csv_delimiter ["a;b;c", "1;2;3"])
        (csvSample ["a;b;c", "1;2;3"])) 0 ∧
    (0 < delimScore (detect_csv_delimiter ["a;b;c", "1;2;3"])
        (csvSample ["a;b;c", "1;2;3"]) ∨
      detect_csv_delimiter ["a;b;c", "1;2;3"] = ',') ∧
    detect_csv_delimiter ["a,b,c", "1,2,3", "4,5,6"] = ',' ∧
    detect_csv_delimiter ["a;b;c", "1;2;3"] = ';' :=
  detect_csv_delimiter_spec ["a;b;c", "1;2;3"] ',' (by decide)

theorem charsLe_total (a : List Char) : ∀ b, charsLe a b = true ∨ charsLe b a = true := by
  induction a with
  | nil => intro b; left; rfl
  | cons x xs ih =>
    intro b
    cases b with
    | nil => right; rfl
    | cons y ys =>
      simp only [charsLe]
      rcases Nat.lt_trichotomy x.toNat y.toNat with h | h | h
      · left; rw [if_pos h]
      · have h1 : ¬x.toNat < y.toNat := by omega
        have h2 : ¬y.toNat < x.toNat := by omega
        rw [if_neg h1, if_neg h2, if_neg h2, if_neg h1]
        exact ih ys
      · right; rw [if_pos h]

theorem charsLe_trans (a : List Char) : ∀ b c, charsLe a b = true → charsLe b c = true →
    charsLe a c = true := by
  induction a with
  | nil => intro b c _ _; rfl
  | cons x xs ih =>
    intro b c hab hbc
    cases b with
    | nil => simp [charsLe] at hab
    | cons y ys =>
      cases c with
      | nil => simp [charsLe] at hbc
      | cons z zs =>
        simp only [charsLe] at hab hbc ⊢
        rcases Nat.lt_trichotomy x.toNat y.toNat with h1 | h1 | h1
        · by_cases hzy : z.toNat < y.toNat
          · rw [if_neg (by omega), if_pos hzy] at hbc
            cases hbc
          · rw [if_pos (by omega : x.toNat < z.toNat)]
        · rw [if_neg (by omega), if_neg (by omega)] at hab
          rcases Nat.lt_trichotomy y.toNat z.toNat with h2 | h2 | h2
          · rw [if_pos (by omega : x.toNat < z.toNat)]
          · rw [if_neg (by omega), if_neg (by omega)] at hbc
            rw [if_neg (by omega), if_neg (by omega)]
            exact ih ys zs hab hbc
          · rw [if_neg (by omega), if_pos h2] at hbc
            cases hbc
        · rw [if_neg (by omega), if_pos h1] at hab
          cases hab

instance : IsTotal String (fun a b => strLeB a b = true) :=
  ⟨fun a b => charsLe_total a.data b.data⟩

instance : IsTrans String (fun a b => strLeB a b = true) :=
  ⟨fun a b c => charsLe_trans a.data b.data c.data⟩

theorem sortStrings_sorted (l : List String) :
    List.Sorted (fun a b => strLeB a b = true) (sortStrings l) :=
  List.sorted_insertionSort _ l

theorem sortStrings_mem (l : List String) (k : String) : k ∈ sortStrings l ↔ k ∈ l :=
  (List.perm_insertionSort _ l).mem_iff

theorem ndObjects_skip (pre post : List String) (bad : String)
    (hbad : json_loads (pyStrip bad) = none) :
    ndObjects (pre ++ bad :: post) = ndObjects (pre ++ post) := by
  simp only [ndObjects, List.filterMap_append, List.filterMap_cons]
  by_cases hb : pyStrip bad = ""
  · simp [hb]
  · simp [hb, hbad]

theorem load_json_nd_eq (lines : List String) (h : ndObjects lines ≠ []) :
    load_json_nd lines = LoadResult.four (ndHeaders lines) (ndRows lines) true (ndRows lines) := by
  unfold load_json_nd ndRows ndHeaders
  cases hobj : ndObjects lines with
  | nil => exact absurd hobj h
  | cons o os => simp only [loadJsonNdOf]

theorem getD_map_of_lt {α β : Type} (f : α → β) (l : List α) (i : Nat) (d : β) (d0 : α)
    (h : i < l.length) : (l.map f).getD i d = f (l.getD i d0) := by
  induction l generalizing i with
  | nil => simp at h
  | cons a as ih =>
    cases i with
    | zero => simp
    | succ n =>
      simp only [List.map_cons, List.getD_cons_succ]
      exact ih n (by simpa using Nat.lt_of_succ_lt_succ h)

/-- Claim C7 (status: confirmed).  For newline-delimited JSON input the
produced headers are the sorted (by code point) union of all keys seen across
all parsed objects, there is one row per parsed object, a record missing a key
yields the empty string for that field, lines that fail to parse are skipped
without affecting the result, and in particular the two-line input
`{"a":1}` and `{"b":2}` yields headers `["a","b"]` and rows
`[["1",""],["","2"]]`. -/
theorem load_json_nd_spec (lines pre post : List String) (bad k : String) (i j : Nat)
    (hbad : json_loads (pyStrip bad) = none)
    (hne : 0 < (ndObjects lines).length)
    (hi : i < (ndObjects lines).length)
    (hj : j < (ndHeaders lines).length)
    (hmiss : ((ndObjects lines).getD i []).lookup ((ndHeaders lines).getD j "") = none) :
    List.Sorted (fun a b => strLeB a b = true) (ndHeaders lines) ∧
    (k ∈ ndHeaders lines ↔ ndHasKey lines k = true) ∧
    load_json_nd lines =
      LoadResult.four (ndHeaders lines) (ndRows lines) true (ndRows lines) ∧
    (ndRows lines).length = (ndObjects lines).length ∧
    ((ndRows lines).getD i []).getD j "?" = "" ∧
    load_json_nd (pre ++ bad :: post) = load_json_nd (pre ++ post) ∧
    load_json "\x7b\"a\":1\x7d\n\x7b\"b\":2\x7d" =
      Except.ok (LoadResult.four ["a", "b"] [["1", ""], ["", "2"]] true
        [["1", ""], ["", "2"]]) := by
  refine ⟨sortStrings_sorted _, ?_, load_json_nd_eq lines (List.length_pos.mp hne),
    List.length_map _ _, ?_, ?_, by decide⟩
  · rw [ndHeaders, sortStrings_mem, List.mem_dedup, ndHasKey]
    simp only [List.mem_flatten, List.mem_map, List.any_eq_true, List.contains,
      List.elem_iff]
    constructor
    · rintro ⟨l, ⟨o, ho, rfl⟩, hk⟩
      exact ⟨o, ho, List.mem_map.mp hk⟩
    · rintro ⟨o, ho, hk⟩
      exact ⟨o.map Prod.fst, ⟨o, ho, rfl⟩, List.mem_map.mpr hk⟩
  · have hrow : (ndRows lines).getD i [] =
        jsonRow (ndHeaders lines) ((ndObjects lines).getD i []) := by
      unfold ndRows
      exact getD_map_of_lt _ _ i [] [] hi
    rw [hrow]
    unfold jsonRow
    rw [getD_map_of_lt _ _ j "?" "" hj, hmiss]
    rfl
  · unfold load_json_nd
    rw [ndObjects_skip pre post bad hbad]

/-- Witness for C7 at a concrete input (three lines, the middle one
malformed and skipped; the objects have disjoint keys, so each row has an
empty cell for the key the other record carries). -/
theorem load_json_nd_spec_witness :
    List.Sorted (fun a b => strLeB a b = true)
      (ndHeaders ["\x7b\"b\":2\x7d", "nope", "\x7b\"a\":1\x7d"]) ∧
    ("a" ∈ ndHeaders ["\x7b\"b\":2\x7d", "nope", "\x7b\"a\":1\x7d"] ↔
      ndHasKey ["\x7b\"b\":2\x7d", "nope", "\x7b\"a\":1\x7d"] "a" = true) ∧
    load_json_nd ["\x7b\"b\":2\x7d", "nope", "\x7b\"a\":1\x7d"] =
      LoadResult.four (ndHeaders ["\x7b\"b\":2\x7d", "nope", "\x7b\"a\":1\x7d"])
        (ndRows ["\x7b\"b\":2\x7d", "nope", "\x7b\"a\":1\x7d"]) true
        (ndRows ["\x7b\"b\":2\x7d", "nope", "\x7b\"a\":1\x7d"]) ∧
    (ndRows ["\x7b\"b\":2\x7d", "nope", "\x7b\"a\":1\x7d"]).length =
      (ndObjects ["\x7b\"b\":2\x7d", "nope", "\x7b\"a\":1\x7d"]).length ∧
    ((ndRows ["\x7b\"b\":2\x7d", "nope", "\x7b\"a\":1\x7d"]).getD 0 []).getD 0 "?" = "" ∧
    load_json_nd (["\x7b\"b\":2\x7d"] ++ "nope" :: ["\x7b\"a\":1\x7d"]) =
      load_json_nd (["\x7b\"b\":2\x7d"] ++ ["\x7b\"a\":1\x7d"]) ∧
    load_json "\x7b\"a\":1\x7d\n\x7b\"b\":2\x7d" =
      Except.ok (LoadResult.four ["a", "b"] [["1", ""], ["", "2"]] true
        [["1", ""], ["", "2"]]) :=
  load_json_nd_spec ["\x7b\"b\":2\x7d", "nope", "\x7b\"a\":1\x7d"]
    ["\x7b\"b\":2\x7d"] ["\x7b\"a\":1\x7d"] "nope" "a" 0 0
    rfl (by decide) (by decide) (by decide) rfl

/-- Claim C6 (status: corrected).  As stated the claim is false: on parse
failure the code stores the *stripped* string, not the original string
verbatim — `_convert_value` strips before trying the conversion, so
`" x "` under INTEGER is stored as `"x"`. -/
theorem convert_value_verbatim_counterexample :
    convert_value " x " "INTEGER" = Except.ok (SqlValue.text "x") ∧
    SqlValue.text "x" ≠ SqlValue.text " x " :=
  ⟨by decide, by decide⟩

/-- Claim C6, amended (status: corrected).  For a non-blank raw string:
INTEGER coercion parses the stripped string as a float and, when the value is
finite, truncates it toward zero (the truncated result `t` satisfies
`|t| ≤ |v| < |t| + 1`, and `"3.0"` becomes `3`); REAL coercion parses as a
float and stores the parsed value; and on parse failure either coercion stores
the *stripped* string instead.  (An infinite INTEGER parse raises — claim C1;
a blank string becomes null rather than text.) -/
theorem convert_value_numeric (s : String) (sig e : Int) (x : PyFloat)
    (h : pyStrip s ≠ "") :
    (pyFloat (pyStrip s) = none →
      convert_value s "INTEGER" = Except.ok (SqlValue.text (pyStrip s)) ∧
      convert_value s "REAL" = Except.ok (SqlValue.text (pyStrip s))) ∧
    (pyFloat (pyStrip s) = some (PyFloat.finite sig e) →
      convert_value s "INTEGER" = Except.ok (SqlValue.int (truncSigExp sig e)) ∧
      |((truncSigExp sig e : Int) : ℚ)| ≤ |sigExpVal sig e| ∧
      |sigExpVal sig e| < |((truncSigExp sig e : Int) : ℚ)| + 1) ∧
    (pyFloat (pyStrip s) = some x →
      convert_value s "REAL" = Except.ok (SqlValue.real x)) ∧
    convert_value "3.0" "INTEGER" = Except.ok (SqlValue.int 3) := by
  refine ⟨?_, ?_, ?_, by decide⟩
  · intro hp
    simp only [convert_value, if_neg h, hp]
    exact ⟨by simp, by simp⟩
  · intro hp
    refine ⟨?_, (truncSigExp_spec sig e).1, (truncSigExp_spec sig e).2⟩
    simp only [convert_value, if_neg h, hp]
    simp
  · intro hp
    simp only [convert_value, if_neg h, hp]
    simp

/-- Witness for the amended C6 at concrete inputs. -/
theorem convert_value_numeric_witness :
    (convert_value "3.5" "INTEGER" = Except.ok (SqlValue.int (truncSigExp 35 (-1))) ∧
      |((truncSigExp 35 (-1) : Int) : ℚ)| ≤ |sigExpVal 35 (-1)| ∧
      |sigExpVal 35 (-1)| < |((truncSigExp 35 (-1) : Int) : ℚ)| + 1) ∧
    convert_value "3.5" "REAL" = Except.ok (SqlValue.real (PyFloat.finite 35 (-1))) ∧
    convert_value "3.0" "INTEGER" = Except.ok (SqlValue.int 3) :=
  have h := convert_value_numeric "3.5" 35 (-1) (PyFloat.finite 35 (-1)) (by decide)
  ⟨h.2.1 (by decide), h.2.2.1 (by decide), h.2.2.2⟩

/-! ## Claim theorems -/

/-- Claim C1 (status: code_bug).  The claim says coercion never raises for any
string value and any declared type among TEXT/INTEGER/REAL.  The code violates
this: for the value `"inf"` under an INTEGER column, `float("inf")` succeeds
and `int()` of the resulting infinite float raises `OverflowError`, which the
`except (ValueError, TypeError)` handler does not catch.  The exception
escapes the coercion boundary and aborts the enclosing `insert_data` call
(rollback and re-raise), so the row produces no values at all. -/
theorem convert_value_overflow_bug :
    convert_value "inf" "INTEGER" = Except.error PyErr.overflowError ∧
    convert_value "-Infinity" "INTEGER" = Except.error PyErr.overflowError ∧
    insert_data (fun _ => false) "t" [⟨"a", "INTEGER"⟩] [["inf"]] ⟨[], []⟩ =
      (false, ⟨[], []⟩) ∧
    (∀ t : String, t = "TEXT" ∨ t = "REAL" → ∀ v : String,
      convert_value v t ≠ Except.error PyErr.overflowError) := by
  refine ⟨by decide, by decide, by decide, ?_⟩
  intro t ht v
  simp only [convert_value]
  by_cases hb : pyStrip v = ""
  · simp [hb]
  · rcases ht with h | h <;> subst h
    · simp only [if_neg hb, if_neg (show ¬("TEXT" = "INTEGER") by decide),
        if_neg (show ¬("TEXT" = "REAL") by decide)]
      simp
    · simp only [if_neg hb, if_neg (show ¬("REAL" = "INTEGER") by decide),
        if_pos (show ("REAL" : String) = "REAL" from rfl)]
      cases pyFloat (pyStrip v) <;> simp

/-- Claim C3 (status: code_bug).  On an empty file, `load_csv` and `load_text`
return a 3-tuple (lines 157 and 264) although their annotated return type and
every caller expect a 4-tuple, so the caller-side unpacking raises
`ValueError`; `detect_and_load` consequently exhausts all attempts and raises
for `.csv`/`.txt`/unknown extensions instead of yielding empty headers and
rows (only the `.json` path returns the empty 4-tuple of line 247). -/
theorem empty_file_loaders_bug (sniff : String → Option Bool) :
    load_csv sniff "" = LoadResult.three [] [] false ∧
    load_text "" = LoadResult.three [] [] false ∧
    load_json "" = Except.ok (LoadResult.four [] [] false []) ∧
    unpack4 (load_csv sniff "") = Except.error PyErr.valueError ∧
    detect_and_load sniff ".csv" "" = Except.error PyErr.valueError ∧
    detect_and_load sniff ".txt" "" = Except.error PyErr.valueError ∧
    detect_and_load sniff ".xyz" "" = Except.error PyErr.valueError ∧
    detect_and_load sniff ".json" "" = Except.ok ([], [], false, "JSON", []) :=
  ⟨rfl, rfl, rfl, rfl, rfl, rfl, rfl, rfl⟩

/-- Claim C10 (status: confirmed).  Identifier sanitization is idempotent, and
its output contains only characters from `[A-Za-z0-9_]`. -/
theorem sanitize_identifier_idempotent (s : String) (c : Char)
    (hc : c ∈ (sanitize_identifier s).data) :
    sanitize_identifier (sanitize_identifier s) = sanitize_identifier s ∧
    isIdentChar c = true := by
  refine ⟨sanitize_idem_aux s, ?_⟩
  simp only [sanitize_identifier, List.mem_map] at hc
  obtain ⟨x, -, hx⟩ := hc
  by_cases h : isIdentChar x = true
  · rw [← hx, if_pos h]; exact h
  · rw [← hx, if_neg h]; decide

/-- Witness for C10 at a concrete input. -/
theorem sanitize_identifier_idempotent_witness :
    sanitize_identifier (sanitize_identifier "a!b") = sanitize_identifier "a!b" ∧
    isIdentChar '_' = true :=
  sanitize_identifier_idempotent "a!b" '_' (by decide)

/-- Claim C9 (status: confirmed).  Sanitization replaces every character
outside `[A-Za-z0-9_]` with an underscore positionally and preserves length,
and the very same sanitization is what `create_table` and `insert_data` apply
to the relation name and to every column name: both SQL builders are invariant
under pre-sanitizing the relation name and all column names. -/
theorem sanitize_applied_uniformly (name : String) (schema : List Col) (i : Nat) (c : Char)
    (hc : name.data[i]? = some c) :
    (sanitize_identifier name).length = name.length ∧
    (sanitize_identifier name).data[i]? = some (if isIdentChar c then c else '_') ∧
    create_table_sql name schema =
      create_table_sql (sanitize_identifier name)
        (schema.map (fun col => ⟨sanitize_identifier col.name, col.ctype⟩)) ∧
    insert_sql name schema =
      insert_sql (sanitize_identifier name)
        (schema.map (fun col => ⟨sanitize_identifier col.name, col.ctype⟩)) := by
  refine ⟨?_, ?_, ?_, ?_⟩
  · show (name.data.map (fun c => if isIdentChar c then c else '_')).length = name.data.length
    exact List.length_map _ _
  · simp [sanitize_identifier, List.getElem?_map, hc]
  · simp only [create_table_sql, sanitize_idem_aux, List.map_map]
    have hfn : ((fun col => "\"" ++ sanitize_identifier col.name ++ "\" " ++ col.ctype) ∘
        fun col : Col => (⟨sanitize_identifier col.name, col.ctype⟩ : Col)) =
        fun col : Col => "\"" ++ sanitize_identifier col.name ++ "\" " ++ col.ctype := by
      funext col
      simp [Function.comp, sanitize_idem_aux]
    rw [hfn]
  · simp only [insert_sql, sanitize_idem_aux, List.map_map]
    have hfn : ((fun col => sanitize_identifier col.name) ∘
        fun col : Col => (⟨sanitize_identifier col.name, col.ctype⟩ : Col)) =
        fun col : Col => sanitize_identifier col.name := by
      funext col
      simp [Function.comp, sanitize_idem_aux]
    rw [hfn]

/-- Witness for C9 at a concrete input. -/
theorem sanitize_applied_uniformly_witness :
    (sanitize_identifier "t x").length = ("t x" : String).length ∧
    (sanitize_identifier "t x").data[1]? = some (if isIdentChar ' ' then ' ' else '_') ∧
    create_table_sql "t x" [⟨"a b", "TEXT"⟩] =
      create_table_sql (sanitize_identifier "t x")
        (([⟨"a b", "TEXT"⟩] : List Col).map
          (fun col => (⟨sanitize_identifier col.name, col.ctype⟩ : Col))) ∧
    insert_sql "t x" [⟨"a b", "TEXT"⟩] =
      insert_sql (sanitize_identifier "t x")
        (([⟨"a b", "TEXT"⟩] : List Col).map
          (fun col => (⟨sanitize_identifier col.name, col.ctype⟩ : Col))) :=
  sanitize_applied_uniformly "t x" [⟨"a b", "TEXT"⟩] 1 ' ' (by decide)

end Dbload
